import Mathlib

/-!
# Payslip generator: payroll calculation and ledger consumption

A shallow embedding of `internal/services/payroll_service.go`,
`internal/services/audit_service.go`, the handler `SubmitAttendance` of
`internal/handlers/employee_handlers.go` and the record types of
`internal/models/models.go`, followed by theorems about them.

Modelling conventions.

* `time.Time` is an instant: whole seconds since the Unix epoch, in UTC
  (an `Int`). A calendar date is the instant of its midnight,
  `midnight d = 86400 * d` for the day number `d` (days since 1970-01-01),
  which is what `time.Parse("2006-01-02", _)` and `time.Date(y, m, d, 0, 0, 0, 0, time.UTC)`
  produce. `AddDate(0, 0, 1)` adds `86400` seconds; `Weekday()` is
  `(⌊t / 86400⌋ + 4) mod 7` with `0 = Sunday`, ..., `6 = Saturday`
  (1970-01-01 was a Thursday).
* `float64` is a parameter `F` of the development: any type with a zero,
  addition, multiplication, division and a conversion from the naturals.
  Theorems stated for every `F` hold for whatever arithmetic the machine
  carries out; where a concrete figure is computed, `F` is `ℚ`.
* The database is a record of tables, each a list of rows in the order the
  database returns them. Only the columns the payroll code reads or writes
  are kept; the primary key, timestamps and soft-delete marker that the ORM
  maintains on its own for payslips and audit rows are left out.
* SQL `x BETWEEN a AND b` is `a ≤ x ∧ x ≤ b`.
* A database call whose error the source inspects can fail: the two
  `UPDATE`s of the marking transaction and the `INSERT` of a payslip take a
  fault flag. Calls whose error the source ignores are taken to succeed.
-/

namespace PayslipGenerator

/-! ## Time -/

/-- Seconds in a day: what `AddDate(0, 0, 1)` adds to a UTC instant. -/
def secondsPerDay : Int := 86400

/-- The instant at 00:00:00 UTC of the day with number `d` (days since 1970-01-01). -/
def midnight (d : Int) : Int := secondsPerDay * d

/-- The day number of the calendar date (UTC) an instant falls on. -/
def dayOf (t : Int) : Int := t / secondsPerDay

/-- Weekday of a day number, as `time.Weekday`: `0` is Sunday, `6` is Saturday. -/
def weekdayOfDay (d : Int) : Int := (d + 4) % 7

/-- Go `t.Weekday()`. -/
def weekday (t : Int) : Int := weekdayOfDay (dayOf t)

/-- Value of `time.Sunday`. -/
def Sunday : Int := 0

/-- Value of `time.Saturday`. -/
def Saturday : Int := 6

/-- SQL `x BETWEEN lo AND hi`. -/
def between (x lo hi : Int) : Bool := decide (lo ≤ x) && decide (x ≤ hi)

/-! ## Records (`models.go`) -/

/-- Row of `employees`. -/
structure Employee (F : Type) where
  ID : Nat
  Username : String
  Salary : F

/-- Row of `attendances`. -/
structure Attendance where
  ID : Nat
  EmployeeID : Nat
  CheckIn : Int
deriving DecidableEq

/-- Row of `overtimes`. -/
structure Overtime (F : Type) where
  ID : Nat
  EmployeeID : Nat
  Date : Int
  Hours : F
  IsApproved : Bool
  PayrollRunID : Option Nat

/-- Row of `reimbursements`; `CreatedAt` is the insertion instant kept by `BaseModel`. -/
structure Reimbursement (F : Type) where
  ID : Nat
  CreatedAt : Int
  EmployeeID : Nat
  Description : String
  Amount : F
  IsApproved : Bool
  PayrollRunID : Option Nat

/-- Row of `payroll_periods`. -/
structure PayrollPeriod where
  ID : Nat
  StartDate : Int
  EndDate : Int
  IsRun : Bool
deriving DecidableEq

/-- The seven arguments that `fmt.Sprintf` lays out in the JSON text of
`PayslipDetails`, in the order of the format string. -/
structure PayslipDetails (F : Type) where
  daysAttended : Nat
  totalWorkingDays : Nat
  base : F
  prorated : F
  hours : F
  pay : F
  total : F

/-- Row of `payslips` (without the key and timestamps assigned on insert). -/
structure Payslip (F : Type) where
  EmployeeID : Nat
  PayrollPeriodID : Nat
  BaseSalary : F
  DaysAttended : Nat
  WorkingDays : Nat
  ProratedSalary : F
  OvertimeHours : F
  OvertimePay : F
  Reimbursement : F
  TakeHomePay : F
  PayslipDetails : PayslipDetails F
  CreatedByID : Nat
  UpdatedByID : Nat
  RequestIP : String

/-- Row of `audit_logs` (without the key and timestamp assigned on insert). -/
structure AuditLog where
  UserID : Nat
  UserType : String
  Action : String
  Details : String
  RequestIP : String
deriving DecidableEq

/-- The database: one list of rows per table. -/
structure Store (F : Type) where
  employees : List (Employee F)
  periods : List PayrollPeriod
  attendances : List Attendance
  overtimes : List (Overtime F)
  reimbursements : List (Reimbursement F)
  payslips : List (Payslip F)
  auditLogs : List AuditLog

/-- Errors that `calculatePayslipForEmployee` returns: the failed `UPDATE`. -/
inductive DBError where
  | overtimeUpdate
  | reimbursementUpdate
deriving DecidableEq

/-- Which of the statements of one employee's processing fail. -/
structure Faults where
  overtimeUpdate : Bool
  reimbursementUpdate : Bool
  payslipCreate : Bool
deriving DecidableEq

/-- No statement fails. -/
def Faults.none : Faults := ⟨false, false, false⟩

/-! ## `calculatePayslipForEmployee` -/

/-- The loop of lines 55-61: from `currentDay` up to `endDate`, a day at a
time, counting the days that are neither Saturday nor Sunday. -/
def countWorkingDays (currentDay endDate : Int) (workingDays : Nat) : Nat :=
  if h : endDate < currentDay then workingDays
  else
    countWorkingDays (currentDay + secondsPerDay) endDate
      (if weekday currentDay ≠ Saturday ∧ weekday currentDay ≠ Sunday
        then workingDays + 1 else workingDays)
termination_by (endDate - currentDay + 1).toNat
decreasing_by
  simp only [secondsPerDay]
  omega

/-- Lines 54-64: the working days of a period, at least one. -/
def workingDaysOf (period : PayrollPeriod) : Nat :=
  let workingDays := countWorkingDays period.StartDate period.EndDate 0
  if workingDays = 0 then 1 else workingDays

section Calculation

variable {F : Type} [Zero F] [Add F] [Mul F] [Div F] [NatCast F]

/-- Lines 67-70: `SELECT count(*) FROM attendances WHERE employee_id = ? AND
check_in BETWEEN ? AND ?`. -/
def countAttendance (s : Store F) (employeeID : Nat) (startDate endDate : Int) : Nat :=
  (s.attendances.filter
    (fun a => decide (a.EmployeeID = employeeID) && between a.CheckIn startDate endDate)).length

/-- Lines 77-79: `SELECT * FROM overtimes WHERE employee_id = ? AND date BETWEEN
? AND ? AND payroll_run_id IS NULL`. -/
def findOvertimes (s : Store F) (employeeID : Nat) (startDate endDate : Int) :
    List (Overtime F) :=
  s.overtimes.filter
    (fun o => decide (o.EmployeeID = employeeID) && between o.Date startDate endDate
      && o.PayrollRunID.isNone)

/-- Lines 88-90: `SELECT * FROM reimbursements WHERE employee_id = ? AND created_at
BETWEEN ? AND ? AND payroll_run_id IS NULL`. -/
def findReimbursements (s : Store F) (employeeID : Nat) (startDate endDate : Int) :
    List (Reimbursement F) :=
  s.reimbursements.filter
    (fun r => decide (r.EmployeeID = employeeID) && between r.CreatedAt startDate endDate
      && r.PayrollRunID.isNone)

/-- Lines 80-83: the loop `totalOvertimeHours += ot.Hours`, from `0.0`. -/
def sumHours (overtimes : List (Overtime F)) : F :=
  overtimes.foldl (fun total ot => total + ot.Hours) 0

/-- Lines 91-94: the loop `totalReimbursement += r.Amount`, from `0.0`. -/
def sumAmounts (reimbursements : List (Reimbursement F)) : F :=
  reimbursements.foldl (fun total r => total + r.Amount) 0

/-- Lines 53-122: the payslip value assembled from the period, the employee
and the three queries. -/
def buildPayslip (s : Store F) (emp : Employee F) (period : PayrollPeriod)
    (adminID : Nat) (requestIP : String) : Payslip F :=
  let workingDays := workingDaysOf period
  let daysAttended := countAttendance s emp.ID period.StartDate period.EndDate
  let dailyRate := emp.Salary / (workingDays : F)
  let proratedSalary := dailyRate * (daysAttended : F)
  let overtimes := findOvertimes s emp.ID period.StartDate period.EndDate
  let totalOvertimeHours := sumHours overtimes
  let hourlyRate := dailyRate / ((8 : Nat) : F)
  let overtimePay := totalOvertimeHours * (hourlyRate * ((2 : Nat) : F))
  let reimbursements := findReimbursements s emp.ID period.StartDate period.EndDate
  let totalReimbursement := sumAmounts reimbursements
  let takeHomePay := proratedSalary + overtimePay + totalReimbursement
  { EmployeeID := emp.ID
    PayrollPeriodID := period.ID
    BaseSalary := emp.Salary
    DaysAttended := daysAttended
    WorkingDays := workingDays
    ProratedSalary := proratedSalary
    OvertimeHours := totalOvertimeHours
    OvertimePay := overtimePay
    Reimbursement := totalReimbursement
    TakeHomePay := takeHomePay
    PayslipDetails :=
      { daysAttended := daysAttended
        totalWorkingDays := workingDays
        base := emp.Salary
        prorated := proratedSalary
        hours := totalOvertimeHours
        pay := overtimePay
        total := totalReimbursement }
    CreatedByID := adminID
    UpdatedByID := adminID
    RequestIP := requestIP }

/-- Line 131: `UPDATE overtimes SET payroll_run_id = ? WHERE id IN ?`. -/
def markOvertimes (rows : List (Overtime F)) (ids : List Nat) (runID : Nat) :
    List (Overtime F) :=
  rows.map (fun o => if o.ID ∈ ids then { o with PayrollRunID := some runID } else o)

/-- Line 141: `UPDATE reimbursements SET payroll_run_id = ? WHERE id IN ?`. -/
def markReimbursements (rows : List (Reimbursement F)) (ids : List Nat) (runID : Nat) :
    List (Reimbursement F) :=
  rows.map (fun r => if r.ID ∈ ids then { r with PayrollRunID := some runID } else r)

/-- Lines 124-146: the transaction that stamps the selected rows with the
period id. A failing `UPDATE` rolls the transaction back: the store is the one
before `Begin`. An `UPDATE` is only issued for a non-empty list. -/
def markConsumed (s : Store F) (overtimes : List (Overtime F))
    (reimbursements : List (Reimbursement F)) (runID : Nat) (faults : Faults) :
    Except DBError (Store F) :=
  if 0 < overtimes.length ∧ faults.overtimeUpdate = true then
    Except.error DBError.overtimeUpdate
  else
    let tx : Store F :=
      if 0 < overtimes.length then
        { s with overtimes := markOvertimes s.overtimes (overtimes.map (fun o => o.ID)) runID }
      else s
    if 0 < reimbursements.length ∧ faults.reimbursementUpdate = true then
      Except.error DBError.reimbursementUpdate
    else
      Except.ok
        (if 0 < reimbursements.length then
          { tx with
            reimbursements :=
              markReimbursements tx.reimbursements (reimbursements.map (fun r => r.ID)) runID }
        else tx)

/-- The store a committed marking transaction leaves: both `UPDATE`s applied
(an `UPDATE` over an empty id list changes nothing). -/
def markedStore (s : Store F) (ots : List (Overtime F))
    (rbs : List (Reimbursement F)) (runID : Nat) : Store F :=
  { s with
    overtimes := markOvertimes s.overtimes (ots.map (fun o => o.ID)) runID
    reimbursements := markReimbursements s.reimbursements (rbs.map (fun r => r.ID)) runID }

/-- The source function `calculatePayslipForEmployee`: the result (a payslip or
the error) and the store it leaves behind. -/
def calculatePayslipForEmployee (s : Store F) (emp : Employee F) (period : PayrollPeriod)
    (adminID : Nat) (requestIP : String) (faults : Faults) :
    Except DBError (Payslip F) × Store F :=
  let payslip := buildPayslip s emp period adminID requestIP
  let overtimes := findOvertimes s emp.ID period.StartDate period.EndDate
  let reimbursements := findReimbursements s emp.ID period.StartDate period.EndDate
  match markConsumed s overtimes reimbursements period.ID faults with
  | Except.error err => (Except.error err, s)
  | Except.ok s' => (Except.ok payslip, s')

/-! ## `RunPayrollService` -/

/-- Line 16: `First(&period, periodID)`, the row with that primary key if any. -/
def findPeriod (s : Store F) (periodID : Nat) : Option PayrollPeriod :=
  s.periods.find? (fun p => decide (p.ID = periodID))

/-- Line 26: `UPDATE payroll_periods SET is_run = true WHERE id = ?`. -/
def setIsRun (s : Store F) (periodID : Nat) : Store F :=
  { s with
    periods := s.periods.map (fun p => if p.ID = periodID then { p with IsRun := true } else p) }

/-- The function `CreateAuditLog` of `audit_service.go`: one more row in `audit_logs`. -/
def CreateAuditLog (s : Store F) (userID : Nat) (userType action details requestIP : String) :
    Store F :=
  { s with
    auditLogs := s.auditLogs ++
      [{ UserID := userID, UserType := userType, Action := action, Details := details,
         RequestIP := requestIP }] }

/-- Line 37: `INSERT INTO payslips`. -/
def createPayslip (s : Store F) (payslip : Payslip F) : Store F :=
  { s with payslips := s.payslips ++ [payslip] }

/-- Body of the loop of lines 31-42 for one employee: a failed calculation is
skipped, a failed insert is only logged. -/
def processEmployee (period : PayrollPeriod) (adminID : Nat) (requestIP : String)
    (faults : Nat → Faults) (s : Store F) (emp : Employee F) : Store F :=
  match calculatePayslipForEmployee s emp period adminID requestIP (faults emp.ID) with
  | (Except.error _, s') => s'
  | (Except.ok payslip, s') =>
    if (faults emp.ID).payslipCreate = true then s' else createPayslip s' payslip

/-- Line 47: `fmt.Sprintf("Successfully ran payroll for period ID %d.", periodID)`. -/
def runDetails (periodID : Nat) : String :=
  "Successfully ran payroll for period ID " ++ toString periodID ++ "."

/-- The source function `RunPayrollService`, as a store transformer. `faults`
gives, per employee id, the statements that fail while that employee is
processed. -/
def RunPayrollService (s : Store F) (periodID adminID : Nat) (requestIP : String)
    (faults : Nat → Faults) : Store F :=
  match findPeriod s periodID with
  | Option.none => s
  | some period =>
    if period.IsRun = true then s
    else
      let s1 := setIsRun s period.ID
      let employees := s1.employees
      let s2 := employees.foldl (processEmployee period adminID requestIP faults) s1
      CreateAuditLog s2 adminID "admin" "RAN_PAYROLL" (runDetails periodID) requestIP

end Calculation

/-! ## Sequences of calls -/

section Calls

variable {F : Type} [Zero F] [Add F] [Mul F] [Div F] [NatCast F]

/-- The arguments of one call of `RunPayrollService`, with the faults met. -/
structure RunCall where
  periodID : Nat
  adminID : Nat
  requestIP : String
  faults : Nat → Faults

/-- The store after one call of `RunPayrollService`. -/
def RunCall.apply (s : Store F) (c : RunCall) : Store F :=
  RunPayrollService s c.periodID c.adminID c.requestIP c.faults

/-- The store after a sequence of calls of `RunPayrollService`. -/
def runAll (s : Store F) (calls : List RunCall) : Store F :=
  calls.foldl RunCall.apply s

/-- A call of either payroll function. -/
inductive Call (F : Type) where
  | calculate (emp : Employee F) (period : PayrollPeriod) (adminID : Nat) (requestIP : String)
      (faults : Faults)
  | run (call : RunCall)

/-- The store after a call of either payroll function. -/
def Call.apply (s : Store F) : Call F → Store F
  | Call.calculate emp period adminID requestIP faults =>
    (calculatePayslipForEmployee s emp period adminID requestIP faults).2
  | Call.run c => RunCall.apply s c

/-- The store after a sequence of calls of the payroll functions. -/
def applyCalls (s : Store F) (calls : List (Call F)) : Store F :=
  calls.foldl Call.apply s

end Calls

/-! ## Invariants -/

/-- The rows with an overtime key in `I` or a reimbursement key in `J` carry a
consumption reference. -/
def Consumed {F : Type} (I J : List Nat) (s : Store F) : Prop :=
  (∀ o ∈ s.overtimes, o.ID ∈ I → o.PayrollRunID ≠ Option.none) ∧
    (∀ r ∈ s.reimbursements, r.ID ∈ J → r.PayrollRunID ≠ Option.none)

/-- The invariant behind "one payslip per employee and period": employee keys
are distinct, no two payslips share their (employee, period) pair, and every
period row whose id a payslip carries has `IsRun` set. -/
def PayslipInvariant {F : Type} (s : Store F) : Prop :=
  (s.employees.map (fun e => e.ID)).Nodup ∧
    (s.payslips.map (fun ps => (ps.EmployeeID, ps.PayrollPeriodID))).Nodup ∧
    ∀ ps ∈ s.payslips, ∀ p ∈ s.periods, p.ID = ps.PayrollPeriodID → p.IsRun = true

/-! ## Fixtures of `payroll_service_test.go` -/

/-- Day number of 2025-06-01, a Sunday. -/
def june1 : Int := 20240

/-- The employee of `TestCalculatePayslipForEmployee`. -/
def testEmployee : Employee ℚ := ⟨1, "testuser", 10500000⟩

/-- The period of `TestCalculatePayslipForEmployee`: 1 to 30 June 2025. -/
def testPeriod : PayrollPeriod := ⟨1, midnight june1, midnight (june1 + 29), false⟩

/-- The instant `time.Date(2025, 6, i + 1, 9, 0, 0, 0, time.UTC)`. -/
def juneNineAM (i : Nat) : Int := midnight (june1 + i) + 9 * 3600

/-- The attendance rows a test inserts: for `i = 1, ..., n`, a check-in at 09:00
on June `i` when that day is neither Saturday nor Sunday. -/
def testAttendances (n : Nat) : List Attendance :=
  (((List.range n).filter
      (fun i => decide (weekday (juneNineAM i) ≠ Saturday ∧ weekday (juneNineAM i) ≠ Sunday))).enum).map
    (fun ki => ⟨ki.1 + 1, 1, juneNineAM ki.2⟩)

/-- The database of the test "calculates correctly for full attendance". -/
def fullAttendanceStore : Store ℚ :=
  { employees := [testEmployee]
    periods := [testPeriod]
    attendances := testAttendances 30
    overtimes := []
    reimbursements := []
    payslips := []
    auditLogs := [] }

/-- A period made of one weekend: Saturday 7 and Sunday 8 June 2025. -/
def weekendPeriod : PayrollPeriod := ⟨2, midnight (june1 + 6), midnight (june1 + 7), false⟩

/-- A database with the test employee, the weekend period and nothing else. -/
def weekendStore : Store ℚ :=
  { employees := [testEmployee]
    periods := [weekendPeriod]
    attendances := []
    overtimes := []
    reimbursements := []
    payslips := []
    auditLogs := [] }

/-- The database of the test "calculates correctly with partial attendance,
overtime, and reimbursement": check-ins on the 15 working days of 1 to 21 June,
three overtime hours on 5 June and a reimbursement of 50,000 inserted at the
instant `now`. -/
def partialAttendanceStore (now : Int) : Store ℚ :=
  { employees := [testEmployee]
    periods := [testPeriod]
    attendances := testAttendances 21
    overtimes := [⟨1, 1, midnight (june1 + 4), 3, true, Option.none⟩]
    reimbursements := [⟨1, now, 1, "Test", 50000, true, Option.none⟩]
    payslips := []
    auditLogs := [] }

/-- A ledger with rows the selection of the test employee over June 2025 takes
(overtime 1, reimbursement 1) and rows it leaves: another employee's (2), out of
range (3), already consumed by run 7 (4). -/
def ledgerStore : Store ℚ :=
  { employees := [testEmployee, ⟨2, "other", 6000000⟩]
    periods := [testPeriod]
    attendances := testAttendances 21
    overtimes :=
      [⟨1, 1, midnight (june1 + 4), 3, true, Option.none⟩,
       ⟨2, 2, midnight (june1 + 4), 2, true, Option.none⟩,
       ⟨3, 1, midnight (june1 + 34), 1, true, Option.none⟩,
       ⟨4, 1, midnight (june1 + 5), 2, true, some 7⟩]
    reimbursements :=
      [⟨1, midnight (june1 + 9) + 36000, 1, "Test", 50000, true, Option.none⟩,
       ⟨2, midnight (june1 + 9) + 36000, 2, "Taxi", 20000, true, Option.none⟩,
       ⟨3, midnight (june1 + 40), 1, "Late", 10000, true, Option.none⟩,
       ⟨4, midnight (june1 + 2), 1, "Paid", 30000, true, some 7⟩]
    payslips := []
    auditLogs := [] }

/-- The full-attendance database once its period has been run. -/
def closedStore : Store ℚ :=
  { fullAttendanceStore with periods := [{ testPeriod with IsRun := true }] }

/-- An employee without pay. -/
def unpaidEmployee : Employee ℚ := ⟨3, "intern", 0⟩

/-- Saturday 7 to Monday 9 June 2025: one working day. -/
def longWeekendPeriod : PayrollPeriod := ⟨3, midnight (june1 + 6), midnight (june1 + 8), false⟩

/-- A database in which the unpaid employee has check-ins at 09:00 on the
Saturday and the Sunday of the long weekend. -/
def overAttendanceStore : Store ℚ :=
  { employees := [unpaidEmployee]
    periods := [longWeekendPeriod]
    attendances := [⟨1, 3, juneNineAM 6⟩, ⟨2, 3, juneNineAM 7⟩]
    overtimes := []
    reimbursements := []
    payslips := []
    auditLogs := [] }

/-- A database with the test period and no employee. -/
def noEmployeeStore : Store ℚ :=
  { employees := []
    periods := [testPeriod]
    attendances := []
    overtimes := []
    reimbursements := []
    payslips := []
    auditLogs := [] }

/-- Row by row, `s'` holds the ledger rows of `s` under the same keys, and a
row that carries a consumption reference in `s` is the same row in `s'`. -/
def ReferencesKept {F : Type} (s s' : Store F) : Prop :=
  List.Forall₂ (fun o o' => o'.ID = o.ID ∧ (o.PayrollRunID ≠ Option.none → o' = o))
      s.overtimes s'.overtimes ∧
    List.Forall₂ (fun r r' => r'.ID = r.ID ∧ (r.PayrollRunID ≠ Option.none → r' = r))
      s.reimbursements s'.reimbursements

/-- Every ledger row of `s` that carries a consumption reference is still a row
of `s'`, and it is the only row of `s'` under its key: the entry has the same
reference (and the same other columns) in `s'`. -/
def SetReferencesUnchanged {F : Type} (s s' : Store F) : Prop :=
  (∀ o ∈ s.overtimes, o.PayrollRunID ≠ Option.none →
      o ∈ s'.overtimes ∧ ∀ o' ∈ s'.overtimes, o'.ID = o.ID → o' = o) ∧
    (∀ r ∈ s.reimbursements, r.PayrollRunID ≠ Option.none →
      r ∈ s'.reimbursements ∧ ∀ r' ∈ s'.reimbursements, r'.ID = r.ID → r' = r)

/-! ## `SubmitAttendance` (`employee_handlers.go`) -/

/-- Body of a response of `SubmitAttendance`: `gin.H{"error": message}`, the
error text of the JSON binder (produced outside the repository), or the created
row. -/
inductive ResponseBody where
  | error (message : String)
  | bindingError
  | attendance (row : Attendance)
deriving DecidableEq

/-- Status code and body of an HTTP response. -/
structure Response where
  status : Nat
  body : ResponseBody
deriving DecidableEq

/-- What the database answers during one request: whether the `SELECT` fails
with an error other than "record not found", and the key the `INSERT` assigns
(`none` when the `INSERT` fails). -/
structure AttendanceDB where
  lookupError : Bool
  insertedID : Option Nat

/-- Value of `http.StatusBadRequest`. -/
def StatusBadRequest : Nat := 400

/-- Value of `http.StatusForbidden`. -/
def StatusForbidden : Nat := 403

/-- Value of `http.StatusConflict`. -/
def StatusConflict : Nat := 409

/-- Value of `http.StatusInternalServerError`. -/
def StatusInternalServerError : Nat := 500

/-- Value of `http.StatusCreated`. -/
def StatusCreated : Nat := 201

/-- Lines 31-33: the row `First` returns for `employee_id = ? AND check_in >= ?
AND check_in < ?`, if any. -/
def findAttendance {F : Type} (s : Store F) (employeeID : Nat) (startOfDay endOfDay : Int) :
    Option Attendance :=
  s.attendances.find?
    (fun a => decide (a.EmployeeID = employeeID) && decide (startOfDay ≤ a.CheckIn) &&
      decide (a.CheckIn < endOfDay))

/-- The handler `SubmitAttendance`, as a function of the store, the `employeeId`
of the request body (`none` when the body does not bind), the instant
`time.Now()` (read in UTC) and the answers of the database; it gives the
response and the store afterwards. The binding `required` rejects the zero
value. -/
def SubmitAttendance {F : Type} (s : Store F) (employeeId : Option Nat) (now : Int)
    (db : AttendanceDB) : Response × Store F :=
  match employeeId with
  | Option.none => (⟨StatusBadRequest, ResponseBody.bindingError⟩, s)
  | some 0 => (⟨StatusBadRequest, ResponseBody.bindingError⟩, s)
  | some (id + 1) =>
    if weekday now = Saturday ∨ weekday now = Sunday then
      (⟨StatusForbidden,
        ResponseBody.error "Attendance submission is not allowed on weekends."⟩, s)
    else
      let startOfDay := midnight (dayOf now)
      let endOfDay := startOfDay + 24 * 3600
      if db.lookupError = true ∨ (findAttendance s (id + 1) startOfDay endOfDay).isSome = true then
        (⟨StatusConflict,
          ResponseBody.error "Attendance for today has already been submitted."⟩, s)
      else
        match db.insertedID with
        | Option.none =>
          (⟨StatusInternalServerError, ResponseBody.error "Failed to submit attendance."⟩, s)
        | some key =>
          let attendance : Attendance := ⟨key, id + 1, now⟩
          (⟨StatusCreated, ResponseBody.attendance attendance⟩,
            { s with attendances := s.attendances ++ [attendance] })

/-- At most one attendance row per employee and calendar day. -/
def AtMostOnePerDay {F : Type} (s : Store F) : Prop :=
  ∀ (employeeID : Nat) (day : Int),
    s.attendances.countP
      (fun a => decide (a.EmployeeID = employeeID) && decide (dayOf a.CheckIn = day)) ≤ 1

/-- 09:30 UTC on Tuesday 10 June 2025. -/
def tuesdayMorning : Int := midnight (june1 + 9) + 9 * 3600 + 1800

/-- 17:00 UTC on Tuesday 10 June 2025. -/
def tuesdayEvening : Int := midnight (june1 + 9) + 17 * 3600

/-- A database with the test employee and no attendance row. -/
def noAttendanceStore : Store ℚ :=
  { employees := [testEmployee]
    periods := [testPeriod]
    attendances := []
    overtimes := []
    reimbursements := []
    payslips := []
    auditLogs := [] }

/-- Faults of a run in which the only failing statement is the `INSERT` of the
payslip of employee 1. -/
def insertFailsForEmployeeOne (employeeID : Nat) : Faults :=
  if employeeID = 1 then ⟨false, false, true⟩ else Faults.none

/-- The period that follows the test period: 1 to 31 July 2025. -/
def julyPeriod : PayrollPeriod := ⟨2, midnight (june1 + 30), midnight (june1 + 60), false⟩

/-- A database in which the test employee has, on the last date of the test
period (Monday 30 June 2025), an overtime row of 2 hours dated that day and a
reimbursement row of 50,000 created at 10:00 UTC, both unconsumed. -/
def lastDayStore : Store ℚ :=
  { employees := [testEmployee]
    periods := [testPeriod, julyPeriod]
    attendances := []
    overtimes := [⟨1, 1, midnight (june1 + 29), 2, true, Option.none⟩]
    reimbursements := [⟨1, midnight (june1 + 29) + 10 * 3600, 1, "Taxi", 50000, true, Option.none⟩]
    payslips := []
    auditLogs := [] }

/-! # Theorems -/

section Lemmas

variable {F : Type}

/-! ## Working days -/

theorem dayOf_midnight (d : Int) : dayOf (midnight d) = d := by
  unfold dayOf midnight secondsPerDay
  exact Int.mul_ediv_cancel_left d (by decide)

theorem weekday_midnight (d : Int) : weekday (midnight d) = weekdayOfDay d := by
  unfold weekday
  rw [dayOf_midnight]

theorem midnight_succ (d : Int) : midnight d + secondsPerDay = midnight (d + 1) := by
  unfold midnight secondsPerDay
  ring

theorem midnight_lt_iff (a b : Int) : midnight b < midnight a ↔ b < a := by
  unfold midnight secondsPerDay
  omega

theorem midnight_le_iff (a b : Int) : midnight a ≤ midnight b ↔ a ≤ b := by
  unfold midnight secondsPerDay
  omega

/-- Not Saturday and not Sunday is the same as Monday (1) to Friday (5). -/
theorem not_weekend_iff (d : Int) :
    (weekdayOfDay d ≠ Saturday ∧ weekdayOfDay d ≠ Sunday) ↔
      (1 ≤ weekdayOfDay d ∧ weekdayOfDay d ≤ 5) := by
  unfold weekdayOfDay Saturday Sunday
  omega

theorem Icc_insert_left (a b : Int) (h : a ≤ b) :
    insert a (Finset.Icc (a + 1) b) = Finset.Icc a b := by
  ext x
  simp only [Finset.mem_insert, Finset.mem_Icc]
  omega

/-- The loop over a range of calendar dates adds the number of Monday-to-Friday
dates of the range to its accumulator. -/
theorem countWorkingDays_midnight (n : Nat) :
    ∀ (a b : Int) (acc : Nat), (b + 1 - a).toNat = n →
      countWorkingDays (midnight a) (midnight b) acc =
        acc + ((Finset.Icc a b).filter
          (fun d => 1 ≤ weekdayOfDay d ∧ weekdayOfDay d ≤ 5)).card := by
  induction n with
  | zero =>
    intro a b acc h
    have hlt : b < a := by omega
    rw [countWorkingDays, dif_pos ((midnight_lt_iff a b).mpr hlt)]
    rw [Finset.Icc_eq_empty (by omega)]
    simp
  | succ n ih =>
    intro a b acc h
    have hle : a ≤ b := by omega
    have hnlt : ¬ midnight b < midnight a := by
      rw [midnight_lt_iff]
      omega
    rw [countWorkingDays, dif_neg hnlt, midnight_succ, weekday_midnight]
    rw [ih (a + 1) b _ (by omega), ← Icc_insert_left a b hle]
    rw [Finset.filter_insert]
    by_cases hw : 1 ≤ weekdayOfDay a ∧ weekdayOfDay a ≤ 5
    · have hnot : a ∉ (Finset.Icc (a + 1) b).filter
          (fun d => 1 ≤ weekdayOfDay d ∧ weekdayOfDay d ≤ 5) := by
        simp only [Finset.mem_filter, Finset.mem_Icc]
        omega
      rw [if_pos ((not_weekend_iff a).mpr hw), if_pos hw, Finset.card_insert_of_not_mem hnot]
      omega
    · rw [if_neg (fun h' => hw ((not_weekend_iff a).mp h')), if_neg hw]

/-- Closed form of `workingDaysOf` for a period given by two calendar dates. -/
theorem workingDaysOf_midnight (id : Nat) (a b : Int) (isRun : Bool) :
    workingDaysOf ⟨id, midnight a, midnight b, isRun⟩ =
      max 1 ((Finset.Icc a b).filter
        (fun d => 1 ≤ weekdayOfDay d ∧ weekdayOfDay d ≤ 5)).card := by
  unfold workingDaysOf
  simp only [countWorkingDays_midnight _ a b 0 rfl, Nat.zero_add]
  split_ifs with h
  · rw [h]; rfl
  · omega

/-! ## Shape of the result of `calculatePayslipForEmployee` -/

/-- The store after a committed marking transaction. -/
theorem markConsumed_no_faults (s : Store F) (ots : List (Overtime F))
    (rbs : List (Reimbursement F)) (runID : Nat) (faults : Faults)
    (h1 : faults.overtimeUpdate = false) (h2 : faults.reimbursementUpdate = false) :
    ∃ s', markConsumed s ots rbs runID faults = Except.ok s' := by
  unfold markConsumed
  simp [h1, h2]

theorem calculate_fst_ok [Zero F] [Add F] [Mul F] [Div F] [NatCast F] {s : Store F} {emp : Employee F} {period : PayrollPeriod}
    {adminID : Nat} {requestIP : String} {faults : Faults} {ps : Payslip F}
    (h : (calculatePayslipForEmployee s emp period adminID requestIP faults).1 = Except.ok ps) :
    ps = buildPayslip s emp period adminID requestIP := by
  unfold calculatePayslipForEmployee at h
  simp only at h
  split at h
  · cases h
  · simp only [Except.ok.injEq] at h
    exact h.symm

theorem calculate_fst_no_faults [Zero F] [Add F] [Mul F] [Div F] [NatCast F] (s : Store F) (emp : Employee F) (period : PayrollPeriod)
    (adminID : Nat) (requestIP : String) (faults : Faults)
    (h1 : faults.overtimeUpdate = false) (h2 : faults.reimbursementUpdate = false) :
    (calculatePayslipForEmployee s emp period adminID requestIP faults).1 =
      Except.ok (buildPayslip s emp period adminID requestIP) := by
  obtain ⟨s', hs'⟩ := markConsumed_no_faults s
    (findOvertimes s emp.ID period.StartDate period.EndDate)
    (findReimbursements s emp.ID period.StartDate period.EndDate) period.ID faults h1 h2
  unfold calculatePayslipForEmployee
  simp only [hs']

end Lemmas

section Attendance

variable {F : Type}

/-- Counting the rows whose key falls in a range of days is summing, over the
days of the range, the rows with that day as key. -/
theorem countP_range_eq_sum {α : Type} (f : α → Int) (p : α → Bool) (a b : Int) (l : List α) :
    l.countP (fun r => p r && (decide (a ≤ f r) && decide (f r ≤ b))) =
      ∑ d in Finset.Icc a b, l.countP (fun r => p r && decide (f r = d)) := by
  induction l with
  | nil => simp
  | cons x xs ih =>
    simp only [List.countP_cons, Finset.sum_add_distrib, ih]
    congr 1
    by_cases hp : p x = true
    · by_cases hx : a ≤ f x ∧ f x ≤ b
      · have hmem : f x ∈ Finset.Icc a b := Finset.mem_Icc.mpr hx
        simp [hp, hx.1, hx.2, Finset.sum_ite_eq, hmem]
      · have hmem : f x ∉ Finset.Icc a b := fun h => hx (Finset.mem_Icc.mp h)
        have hdec : (decide (a ≤ f x) && decide (f x ≤ b)) = false := by
          simpa using hx
        simp [hp, hdec, Finset.sum_ite_eq, hmem]
    · simp [hp]

/-- An instant lies on or after the midnight of day `a` exactly when its day
number is at least `a`. -/
theorem midnight_le_iff_le_dayOf (a t : Int) : midnight a ≤ t ↔ a ≤ dayOf t := by
  unfold midnight dayOf secondsPerDay
  omega

theorem dayOf_lt_imp_lt_midnight (b t : Int) (h : dayOf t < b) : t < midnight b := by
  unfold midnight dayOf secondsPerDay at *
  omega

theorem le_midnight_imp_dayOf_le (b t : Int) (h : t ≤ midnight b) : dayOf t ≤ b := by
  unfold midnight dayOf secondsPerDay at *
  omega

end Attendance

section FullAttendance

variable {F : Type}

/-- With one row on every Monday-to-Friday date of the range, none on its other
dates, and the row of the last date (if any) stamped at midnight, the attendance
query counts the Monday-to-Friday dates of the range. -/
theorem countAttendance_full (s : Store F) (empID : Nat) (a b : Int)
    (hatt : ∀ d, a ≤ d → d ≤ b →
      s.attendances.countP
          (fun r => decide (r.EmployeeID = empID) && decide (dayOf r.CheckIn = d)) =
        if 1 ≤ weekdayOfDay d ∧ weekdayOfDay d ≤ 5 then 1 else 0)
    (hlast : ∀ r ∈ s.attendances, r.EmployeeID = empID → dayOf r.CheckIn = b →
      r.CheckIn = midnight b) :
    countAttendance s empID (midnight a) (midnight b) =
      ((Finset.Icc a b).filter (fun d => 1 ≤ weekdayOfDay d ∧ weekdayOfDay d ≤ 5)).card := by
  unfold countAttendance
  rw [← List.countP_eq_length_filter]
  have hcongr : s.attendances.countP
      (fun r => decide (r.EmployeeID = empID) && between r.CheckIn (midnight a) (midnight b)) =
      s.attendances.countP (fun r => decide (r.EmployeeID = empID) &&
        (decide (a ≤ dayOf r.CheckIn) && decide (dayOf r.CheckIn ≤ b))) := by
    apply List.countP_congr
    intro r hr
    by_cases he : r.EmployeeID = empID
    · have key : (midnight a ≤ r.CheckIn ∧ r.CheckIn ≤ midnight b) ↔
          (a ≤ dayOf r.CheckIn ∧ dayOf r.CheckIn ≤ b) := by
        constructor
        · rintro ⟨h1, h2⟩
          exact ⟨(midnight_le_iff_le_dayOf a _).mp h1, le_midnight_imp_dayOf_le b _ h2⟩
        · rintro ⟨h1, h2⟩
          refine ⟨(midnight_le_iff_le_dayOf a _).mpr h1, ?_⟩
          rcases lt_or_eq_of_le h2 with hlt | heq
          · exact le_of_lt (dayOf_lt_imp_lt_midnight b _ hlt)
          · exact le_of_eq (hlast r hr he heq)
      simp only [between, he, decide_True, Bool.true_and, Bool.and_eq_true, decide_eq_true_eq]
      exact key
    · simp [he]
  rw [hcongr, countP_range_eq_sum (fun r : Attendance => dayOf r.CheckIn)
    (fun r => decide (r.EmployeeID = empID)) a b s.attendances]
  rw [Finset.card_filter]
  apply Finset.sum_congr rfl
  intro d hd
  rw [Finset.mem_Icc] at hd
  exact hatt d hd.1 hd.2

theorem findOvertimes_eq_nil (s : Store F) (empID : Nat) (lo hi : Int)
    (h : ∀ o ∈ s.overtimes, o.EmployeeID ≠ empID) : findOvertimes s empID lo hi = [] := by
  unfold findOvertimes
  rw [List.filter_eq_nil_iff]
  intro o ho
  simp [h o ho]

theorem findReimbursements_eq_nil (s : Store F) (empID : Nat) (lo hi : Int)
    (h : ∀ r ∈ s.reimbursements, r.EmployeeID ≠ empID) :
    findReimbursements s empID lo hi = [] := by
  unfold findReimbursements
  rw [List.filter_eq_nil_iff]
  intro r hr
  simp [h r hr]

end FullAttendance

/-! ## The marking transaction -/

section Marking

variable {F : Type}

theorem markOvertimes_nil (rows : List (Overtime F)) (runID : Nat) :
    markOvertimes rows [] runID = rows := by
  unfold markOvertimes
  simp

theorem markReimbursements_nil (rows : List (Reimbursement F)) (runID : Nat) :
    markReimbursements rows [] runID = rows := by
  unfold markReimbursements
  simp

theorem markConsumed_ok {s s' : Store F} {ots : List (Overtime F)}
    {rbs : List (Reimbursement F)} {runID : Nat} {faults : Faults}
    (h : markConsumed s ots rbs runID faults = Except.ok s') :
    s' = markedStore s ots rbs runID := by
  unfold markConsumed at h
  split_ifs at h <;> cases h <;> cases ots <;> cases rbs <;>
    simp_all [markedStore, markOvertimes_nil, markReimbursements_nil]

theorem markConsumed_empty (s : Store F) (runID : Nat) (faults : Faults) :
    markConsumed s [] [] runID faults = Except.ok s := by
  simp [markConsumed]

/-- A successful call leaves the marked store. -/
theorem calculate_snd_ok [Zero F] [Add F] [Mul F] [Div F] [NatCast F] {s : Store F}
    {emp : Employee F} {period : PayrollPeriod}
    {adminID : Nat} {requestIP : String} {faults : Faults} {ps : Payslip F}
    (h : (calculatePayslipForEmployee s emp period adminID requestIP faults).1 = Except.ok ps) :
    (calculatePayslipForEmployee s emp period adminID requestIP faults).2 =
      markedStore s (findOvertimes s emp.ID period.StartDate period.EndDate)
        (findReimbursements s emp.ID period.StartDate period.EndDate) period.ID := by
  unfold calculatePayslipForEmployee at h ⊢
  simp only at h ⊢
  split at h
  · cases h
  · rename_i s' hs'
    exact markConsumed_ok hs'

/-- A failed call leaves the store as it was. -/
theorem calculate_snd_error [Zero F] [Add F] [Mul F] [Div F] [NatCast F] {s : Store F}
    {emp : Employee F} {period : PayrollPeriod}
    {adminID : Nat} {requestIP : String} {faults : Faults} {err : DBError}
    (h : (calculatePayslipForEmployee s emp period adminID requestIP faults).1 =
      Except.error err) :
    (calculatePayslipForEmployee s emp period adminID requestIP faults).2 = s := by
  unfold calculatePayslipForEmployee at h ⊢
  simp only at h ⊢
  split at h
  · rfl
  · cases h

/-- Every call either fails and leaves the store, or succeeds with the built
payslip and leaves the marked store. -/
theorem calculate_cases [Zero F] [Add F] [Mul F] [Div F] [NatCast F] (s : Store F)
    (emp : Employee F) (period : PayrollPeriod) (adminID : Nat) (requestIP : String)
    (faults : Faults) :
    (∃ err, calculatePayslipForEmployee s emp period adminID requestIP faults =
        (Except.error err, s)) ∨
      calculatePayslipForEmployee s emp period adminID requestIP faults =
        (Except.ok (buildPayslip s emp period adminID requestIP),
          markedStore s (findOvertimes s emp.ID period.StartDate period.EndDate)
            (findReimbursements s emp.ID period.StartDate period.EndDate) period.ID) := by
  cases hres : (calculatePayslipForEmployee s emp period adminID requestIP faults).1 with
  | error err =>
    left
    exact ⟨err, Prod.ext hres (calculate_snd_error hres)⟩
  | ok ps =>
    right
    refine Prod.ext ?_ (calculate_snd_ok hres)
    rw [hres, calculate_fst_ok hres]

end Marking

/-! ## Selection -/

section Selection

variable {F : Type}

theorem findOvertimes_eq_filter (s : Store F) (empID : Nat) (lo hi : Int) :
    findOvertimes s empID lo hi =
      s.overtimes.filter (fun o => decide (o.EmployeeID = empID ∧ lo ≤ o.Date ∧ o.Date ≤ hi ∧
        o.PayrollRunID = Option.none)) := by
  unfold findOvertimes
  apply List.filter_congr
  intro o _
  cases hrun : o.PayrollRunID <;> simp [between, hrun, Bool.and_assoc]

theorem findReimbursements_eq_filter (s : Store F) (empID : Nat) (lo hi : Int) :
    findReimbursements s empID lo hi =
      s.reimbursements.filter (fun r => decide (r.EmployeeID = empID ∧ lo ≤ r.CreatedAt ∧
        r.CreatedAt ≤ hi ∧ r.PayrollRunID = Option.none)) := by
  unfold findReimbursements
  apply List.filter_congr
  intro r _
  cases hrun : r.PayrollRunID <;> simp [between, hrun, Bool.and_assoc]

/-- In a table with distinct keys, a row's key is among the keys of the
selected rows exactly when the row is selected. -/
theorem mem_ids_filter_iff {α : Type} (f : α → Nat) (p : α → Bool) (l : List α)
    (hnd : (l.map f).Nodup) (x : α) (hx : x ∈ l) :
    f x ∈ (l.filter p).map f ↔ p x = true := by
  constructor
  · intro h
    obtain ⟨y, hy, hfy⟩ := List.mem_map.mp h
    have hy' := List.mem_filter.mp hy
    have : y = x := List.inj_on_of_nodup_map hnd hy'.1 hx hfy
    rw [← this]
    exact hy'.2
  · intro h
    exact List.mem_map.mpr ⟨x, List.mem_filter.mpr ⟨hx, h⟩, rfl⟩

end Selection

/-! ## Invariants of the payroll calls -/

section Invariants

variable {F : Type} [Zero F] [Add F] [Mul F] [Div F] [NatCast F]

/-- Invariant rule for one employee of a run: a property of stores kept by the
marking transaction and by the insertion of a payslip is kept by
`processEmployee`. -/
theorem processEmployee_preserves (P : Store F → Prop)
    (hmark : ∀ (s : Store F) (emp : Employee F) (period : PayrollPeriod), P s →
      P (markedStore s (findOvertimes s emp.ID period.StartDate period.EndDate)
        (findReimbursements s emp.ID period.StartDate period.EndDate) period.ID))
    (hpay : ∀ (s : Store F) (ps : Payslip F), P s → P (createPayslip s ps))
    (period : PayrollPeriod) (adminID : Nat) (requestIP : String) (faults : Nat → Faults)
    (s : Store F) (emp : Employee F) (hs : P s) :
    P (processEmployee period adminID requestIP faults s emp) := by
  unfold processEmployee
  rcases calculate_cases s emp period adminID requestIP (faults emp.ID) with ⟨err, he⟩ | hok
  · rw [he]
    exact hs
  · rw [hok]
    simp only
    split_ifs
    · exact hmark s emp period hs
    · exact hpay _ _ (hmark s emp period hs)

theorem foldl_preserves {α β : Type} (P : α → Prop) (f : α → β → α)
    (hf : ∀ a b, P a → P (f a b)) (l : List β) : ∀ a, P a → P (l.foldl f a) := by
  induction l with
  | nil => intro a ha; exact ha
  | cons x xs ih => intro a ha; exact ih _ (hf a x ha)

/-- Invariant rule for `RunPayrollService`. -/
theorem run_preserves (P : Store F → Prop)
    (hmark : ∀ (s : Store F) (emp : Employee F) (period : PayrollPeriod), P s →
      P (markedStore s (findOvertimes s emp.ID period.StartDate period.EndDate)
        (findReimbursements s emp.ID period.StartDate period.EndDate) period.ID))
    (hpay : ∀ (s : Store F) (ps : Payslip F), P s → P (createPayslip s ps))
    (hflag : ∀ (s : Store F) (periodID : Nat), P s → P (setIsRun s periodID))
    (haudit : ∀ (s : Store F) (userID : Nat) (userType action details requestIP : String),
      P s → P (CreateAuditLog s userID userType action details requestIP))
    (s : Store F) (periodID adminID : Nat) (requestIP : String) (faults : Nat → Faults)
    (hs : P s) : P (RunPayrollService s periodID adminID requestIP faults) := by
  unfold RunPayrollService
  split
  · exact hs
  · split_ifs
    · exact hs
    · apply haudit
      apply foldl_preserves P _
        (fun a b => processEmployee_preserves P hmark hpay _ adminID requestIP faults a b)
      exact hflag _ _ hs

/-- Invariant rule for a sequence of calls of the two payroll functions. -/
theorem applyCalls_preserves (P : Store F → Prop)
    (hmark : ∀ (s : Store F) (emp : Employee F) (period : PayrollPeriod), P s →
      P (markedStore s (findOvertimes s emp.ID period.StartDate period.EndDate)
        (findReimbursements s emp.ID period.StartDate period.EndDate) period.ID))
    (hpay : ∀ (s : Store F) (ps : Payslip F), P s → P (createPayslip s ps))
    (hflag : ∀ (s : Store F) (periodID : Nat), P s → P (setIsRun s periodID))
    (haudit : ∀ (s : Store F) (userID : Nat) (userType action details requestIP : String),
      P s → P (CreateAuditLog s userID userType action details requestIP))
    (calls : List (Call F)) (s : Store F) (hs : P s) : P (applyCalls s calls) := by
  unfold applyCalls
  apply foldl_preserves P _ _ calls s hs
  intro a c ha
  cases c with
  | calculate emp period adminID requestIP faults =>
    show P (calculatePayslipForEmployee a emp period adminID requestIP faults).2
    rcases calculate_cases a emp period adminID requestIP faults with ⟨err, he⟩ | hok
    · rw [he]; exact ha
    · rw [hok]; exact hmark a emp period ha
  | run c =>
    exact run_preserves P hmark hpay hflag haudit a c.periodID c.adminID c.requestIP c.faults ha

end Invariants

/-! ## Consumed rows stay consumed -/

section ConsumedRows

variable {F : Type}

theorem mem_markOvertimes {rows : List (Overtime F)} {ids : List Nat} {runID : Nat}
    {o' : Overtime F} (h : o' ∈ markOvertimes rows ids runID) :
    ∃ o ∈ rows, o' = if o.ID ∈ ids then { o with PayrollRunID := some runID } else o := by
  unfold markOvertimes at h
  obtain ⟨o, ho, heq⟩ := List.mem_map.mp h
  exact ⟨o, ho, heq.symm⟩

theorem mem_markReimbursements {rows : List (Reimbursement F)} {ids : List Nat} {runID : Nat}
    {r' : Reimbursement F} (h : r' ∈ markReimbursements rows ids runID) :
    ∃ r ∈ rows, r' = if r.ID ∈ ids then { r with PayrollRunID := some runID } else r := by
  unfold markReimbursements at h
  obtain ⟨r, hr, heq⟩ := List.mem_map.mp h
  exact ⟨r, hr, heq.symm⟩

/-- The marking transaction keeps consumed rows consumed. -/
theorem consumed_markedStore (I J : List Nat) (s : Store F) (ots : List (Overtime F))
    (rbs : List (Reimbursement F)) (runID : Nat) (h : Consumed I J s) :
    Consumed I J (markedStore s ots rbs runID) := by
  constructor
  · intro o' ho' hI
    obtain ⟨o, ho, heq⟩ := mem_markOvertimes (show o' ∈ markOvertimes s.overtimes _ runID from ho')
    split_ifs at heq with hmem
    · rw [heq]; simp
    · rw [heq] at hI ⊢
      exact h.1 o ho hI
  · intro r' hr' hJ
    obtain ⟨r, hr, heq⟩ :=
      mem_markReimbursements (show r' ∈ markReimbursements s.reimbursements _ runID from hr')
    split_ifs at heq with hmem
    · rw [heq]; simp
    · rw [heq] at hJ ⊢
      exact h.2 r hr hJ

/-- The marking transaction consumes the rows it was given. -/
theorem consumed_after_mark (s : Store F) (ots : List (Overtime F))
    (rbs : List (Reimbursement F)) (runID : Nat) :
    Consumed (ots.map (fun o => o.ID)) (rbs.map (fun r => r.ID))
      (markedStore s ots rbs runID) := by
  constructor
  · intro o' ho' hI
    obtain ⟨o, _, heq⟩ := mem_markOvertimes (show o' ∈ markOvertimes s.overtimes _ runID from ho')
    split_ifs at heq with hmem
    · rw [heq]; simp
    · rw [heq] at hI
      exact absurd hI hmem
  · intro r' hr' hJ
    obtain ⟨r, _, heq⟩ :=
      mem_markReimbursements (show r' ∈ markReimbursements s.reimbursements _ runID from hr')
    split_ifs at heq with hmem
    · rw [heq]; simp
    · rw [heq] at hJ
      exact absurd hJ hmem

/-- A sequence of payroll calls keeps consumed rows consumed. -/
theorem consumed_applyCalls [Zero F] [Add F] [Mul F] [Div F] [NatCast F] (I J : List Nat)
    (calls : List (Call F)) (s : Store F) (h : Consumed I J s) :
    Consumed I J (applyCalls s calls) :=
  applyCalls_preserves (Consumed I J)
    (fun s _ _ hs => consumed_markedStore I J s _ _ _ hs)
    (fun _ _ hs => hs) (fun _ _ hs => hs) (fun _ _ _ _ _ _ hs => hs) calls s h

theorem mem_findOvertimes {s : Store F} {empID : Nat} {lo hi : Int} {o : Overtime F} :
    o ∈ findOvertimes s empID lo hi ↔
      o ∈ s.overtimes ∧ o.EmployeeID = empID ∧ lo ≤ o.Date ∧ o.Date ≤ hi ∧
        o.PayrollRunID = Option.none := by
  rw [findOvertimes_eq_filter, List.mem_filter]
  simp

theorem mem_findReimbursements {s : Store F} {empID : Nat} {lo hi : Int}
    {r : Reimbursement F} :
    r ∈ findReimbursements s empID lo hi ↔
      r ∈ s.reimbursements ∧ r.EmployeeID = empID ∧ lo ≤ r.CreatedAt ∧ r.CreatedAt ≤ hi ∧
        r.PayrollRunID = Option.none := by
  rw [findReimbursements_eq_filter, List.mem_filter]
  simp

/-- Right after the marking transaction, the same selection is empty. -/
theorem findOvertimes_after_mark (s : Store F) (empID : Nat) (lo hi : Int)
    (rbs : List (Reimbursement F)) (runID : Nat) :
    findOvertimes (markedStore s (findOvertimes s empID lo hi) rbs runID) empID lo hi = [] := by
  rw [List.eq_nil_iff_forall_not_mem]
  intro o' ho'
  obtain ⟨hmem, he, h1, h2, hnone⟩ := mem_findOvertimes.mp ho'
  obtain ⟨o, ho, heq⟩ :=
    mem_markOvertimes (show o' ∈ markOvertimes s.overtimes _ runID from hmem)
  split_ifs at heq with hin
  · rw [heq] at hnone
    cases hnone
  · subst heq
    exact hin (List.mem_map.mpr ⟨o', mem_findOvertimes.mpr ⟨ho, he, h1, h2, hnone⟩, rfl⟩)

theorem findReimbursements_after_mark (s : Store F) (empID : Nat) (lo hi : Int)
    (ots : List (Overtime F)) (runID : Nat) :
    findReimbursements (markedStore s ots (findReimbursements s empID lo hi) runID)
      empID lo hi = [] := by
  rw [List.eq_nil_iff_forall_not_mem]
  intro r' hr'
  obtain ⟨hmem, he, h1, h2, hnone⟩ := mem_findReimbursements.mp hr'
  obtain ⟨r, hr, heq⟩ :=
    mem_markReimbursements (show r' ∈ markReimbursements s.reimbursements _ runID from hmem)
  split_ifs at heq with hin
  · rw [heq] at hnone
    cases hnone
  · subst heq
    exact hin (List.mem_map.mpr ⟨r', mem_findReimbursements.mpr ⟨hr, he, h1, h2, hnone⟩, rfl⟩)

end ConsumedRows

/-! ## The guard of `RunPayrollService` -/

section Guard

variable {F : Type} [Zero F] [Add F] [Mul F] [Div F] [NatCast F]

theorem run_of_not_found (s : Store F) (periodID adminID : Nat) (requestIP : String)
    (faults : Nat → Faults) (h : findPeriod s periodID = Option.none) :
    RunPayrollService s periodID adminID requestIP faults = s := by
  unfold RunPayrollService
  rw [h]

theorem run_of_already_run (s : Store F) (periodID adminID : Nat) (requestIP : String)
    (faults : Nat → Faults) (period : PayrollPeriod) (h : findPeriod s periodID = some period)
    (hrun : period.IsRun = true) :
    RunPayrollService s periodID adminID requestIP faults = s := by
  unfold RunPayrollService
  rw [h]
  simp only [hrun, if_true]

/-- The store of a run that passes the guard. -/
theorem run_of_not_yet_run (s : Store F) (periodID adminID : Nat) (requestIP : String)
    (faults : Nat → Faults) (period : PayrollPeriod) (h : findPeriod s periodID = some period)
    (hrun : period.IsRun = false) :
    RunPayrollService s periodID adminID requestIP faults =
      CreateAuditLog
        ((setIsRun s period.ID).employees.foldl
          (processEmployee period adminID requestIP faults) (setIsRun s period.ID))
        adminID "admin" "RAN_PAYROLL" (runDetails periodID) requestIP := by
  unfold RunPayrollService
  rw [h]
  simp only [hrun, Bool.false_eq_true, if_false]

omit [Zero F] [Add F] [Mul F] [Div F] [NatCast F] in
theorem findPeriod_id {s : Store F} {periodID : Nat} {period : PayrollPeriod}
    (h : findPeriod s periodID = some period) : period.ID = periodID := by
  unfold findPeriod at h
  simpa using List.find?_some h

omit [Zero F] [Add F] [Mul F] [Div F] [NatCast F] in
/-- After the flag update, the row found for the period id carries the flag. -/
theorem findPeriod_setIsRun {s : Store F} {periodID : Nat} {period : PayrollPeriod}
    (h : findPeriod s periodID = some period) :
    findPeriod (setIsRun s period.ID) periodID = some { period with IsRun := true } := by
  have hid := findPeriod_id h
  unfold findPeriod at h ⊢
  unfold setIsRun
  simp only [List.find?_map]
  have hcomp : ((fun p : PayrollPeriod => decide (p.ID = periodID)) ∘
      fun p : PayrollPeriod => if p.ID = period.ID then { p with IsRun := true } else p) =
      fun p : PayrollPeriod => decide (p.ID = periodID) := by
    funext p
    simp only [Function.comp]
    split_ifs <;> rfl
  rw [hcomp, h]
  simp

/-- The employee loop leaves the periods and the employees as they are. -/
theorem foldl_process_periods (period : PayrollPeriod) (adminID : Nat) (requestIP : String)
    (faults : Nat → Faults) (emps : List (Employee F)) (s : Store F) :
    (emps.foldl (processEmployee period adminID requestIP faults) s).periods = s.periods ∧
      (emps.foldl (processEmployee period adminID requestIP faults) s).employees =
        s.employees := by
  apply foldl_preserves (fun s' : Store F => s'.periods = s.periods ∧ s'.employees = s.employees)
    _ _ emps s ⟨rfl, rfl⟩
  intro a b ha
  exact processEmployee_preserves
    (fun s' : Store F => s'.periods = s.periods ∧ s'.employees = s.employees)
    (fun _ _ _ hs => hs) (fun _ _ hs => hs) period adminID requestIP faults a b ha

end Guard

/-! ## One payslip per employee and period -/

section OnePayslip

variable {F : Type} [Zero F] [Add F] [Mul F] [Div F] [NatCast F]

/-- What the employee loop does to the payslips: it appends, in order, payslips
of the period for a sublist of the employees. -/
theorem foldl_process_payslips (period : PayrollPeriod) (adminID : Nat) (requestIP : String)
    (faults : Nat → Faults) (emps : List (Employee F)) :
    ∀ s : Store F, ∃ new : List (Payslip F),
      (emps.foldl (processEmployee period adminID requestIP faults) s).payslips =
          s.payslips ++ new ∧
        List.Sublist (new.map (fun ps => (ps.EmployeeID, ps.PayrollPeriodID)))
          (emps.map (fun e => (e.ID, period.ID))) := by
  induction emps with
  | nil =>
    intro s
    exact ⟨[], by simp, by simp⟩
  | cons e es ih =>
    intro s
    obtain ⟨new, hnew, hsub⟩ := ih (processEmployee period adminID requestIP faults s e)
    simp only [List.foldl_cons, List.map_cons]
    rw [hnew]
    unfold processEmployee
    rcases calculate_cases s e period adminID requestIP (faults e.ID) with ⟨err, he⟩ | hok
    · rw [he]
      exact ⟨new, rfl, List.Sublist.cons _ hsub⟩
    · rw [hok]
      simp only
      split_ifs
      · exact ⟨new, rfl, List.Sublist.cons _ hsub⟩
      · refine ⟨buildPayslip s e period adminID requestIP :: new, ?_, ?_⟩
        · simp [createPayslip, markedStore]
        · exact List.Sublist.cons₂ _ hsub

/-- One call of `RunPayrollService` keeps the invariant. -/
theorem run_preserves_payslipInvariant (s : Store F) (periodID adminID : Nat)
    (requestIP : String) (faults : Nat → Faults) (h : PayslipInvariant s) :
    PayslipInvariant (RunPayrollService s periodID adminID requestIP faults) := by
  cases hfind : findPeriod s periodID with
  | none => rw [run_of_not_found s periodID adminID requestIP faults hfind]; exact h
  | some period =>
    cases hrun : period.IsRun with
    | true => rw [run_of_already_run s periodID adminID requestIP faults period hfind hrun]; exact h
    | false =>
      rw [run_of_not_yet_run s periodID adminID requestIP faults period hfind hrun]
      obtain ⟨hemp, hnd, hflag⟩ := h
      have hmem : period ∈ s.periods := by
        unfold findPeriod at hfind
        exact List.mem_of_find?_eq_some hfind
      obtain ⟨hper, hemps⟩ := foldl_process_periods period adminID requestIP faults
        (setIsRun s period.ID).employees (setIsRun s period.ID)
      obtain ⟨new, hnew, hsub⟩ := foldl_process_payslips period adminID requestIP faults
        (setIsRun s period.ID).employees (setIsRun s period.ID)
      replace hemps : (List.foldl (processEmployee period adminID requestIP faults)
          (setIsRun s period.ID) (setIsRun s period.ID).employees).employees = s.employees :=
        hemps
      replace hnew : (List.foldl (processEmployee period adminID requestIP faults)
          (setIsRun s period.ID) (setIsRun s period.ID).employees).payslips =
          s.payslips ++ new := hnew
      replace hsub : List.Sublist (new.map (fun ps => (ps.EmployeeID, ps.PayrollPeriodID)))
          (s.employees.map (fun e => (e.ID, period.ID))) := hsub
      have hnewpid : ∀ ps ∈ new, ps.PayrollPeriodID = period.ID := by
        intro ps hps
        have h1 : (ps.EmployeeID, ps.PayrollPeriodID) ∈
            s.employees.map (fun e => (e.ID, period.ID)) :=
          hsub.subset (List.mem_map.mpr ⟨ps, hps, rfl⟩)
        obtain ⟨e, _, he⟩ := List.mem_map.mp h1
        exact (congrArg Prod.snd he).symm
      have hold : ∀ ps ∈ s.payslips, ps.PayrollPeriodID ≠ period.ID := by
        intro ps hps heq
        have := hflag ps hps period hmem heq.symm
        rw [hrun] at this
        cases this
      unfold PayslipInvariant CreateAuditLog
      simp only
      rw [hemps, hnew, hper]
      refine ⟨hemp, ?_, ?_⟩
      · rw [List.map_append]
        apply List.Nodup.append hnd
        · apply List.Nodup.sublist hsub
          have hinj : Function.Injective (fun n : Nat => (n, period.ID)) := by
            intro a b hab
            exact congrArg Prod.fst hab
          have := List.Nodup.map hinj hemp
          simpa [List.map_map, Function.comp] using this
        · intro pair h1 h2
          obtain ⟨ps1, hps1, he1⟩ := List.mem_map.mp h1
          obtain ⟨ps2, hps2, he2⟩ := List.mem_map.mp h2
          have hp1 := hold ps1 hps1
          have hp2 := hnewpid ps2 hps2
          rw [← he2] at he1
          exact hp1 ((congrArg Prod.snd he1).trans hp2)
      · intro ps hps p hp hid
        unfold setIsRun at hp
        obtain ⟨q, hq, hqp⟩ := List.mem_map.mp hp
        rcases List.mem_append.mp hps with hin | hin
        · split_ifs at hqp with hc
          · rw [← hqp]
          · rw [← hqp] at hid ⊢
            exact hflag ps hin q hq hid
        · have hpid := hnewpid ps hin
          split_ifs at hqp with hc
          · rw [← hqp]
          · rw [← hqp] at hid
            exact absurd (hid.trans hpid) hc

omit [Zero F] [Add F] [Mul F] [Div F] [NatCast F] in
/-- In a list without two rows of the same key, at most one row has a given key. -/
theorem countP_key_le_one {α κ : Type} [DecidableEq κ] (f : α → κ) (k : κ) (l : List α)
    (h : (l.map f).Nodup) : l.countP (fun x => decide (f x = k)) ≤ 1 := by
  induction l with
  | nil => simp
  | cons x xs ih =>
    rw [List.map_cons, List.nodup_cons] at h
    rw [List.countP_cons]
    by_cases hx : f x = k
    · have hzero : xs.countP (fun y => decide (f y = k)) = 0 := by
        rw [List.countP_eq_zero]
        intro y hy hyk
        apply h.1
        rw [hx]
        exact List.mem_map.mpr ⟨y, hy, by simpa using hyk⟩
      rw [hzero]
      simp [hx]
    · have := ih h.2
      simpa [hx] using this

/-- Every sequence of calls of `RunPayrollService` keeps the invariant. -/
theorem runAll_preserves_payslipInvariant (calls : List RunCall) (s : Store F)
    (h : PayslipInvariant s) : PayslipInvariant (runAll s calls) := by
  unfold runAll
  apply foldl_preserves PayslipInvariant _ _ calls s h
  intro a c ha
  exact run_preserves_payslipInvariant a c.periodID c.adminID c.requestIP c.faults ha

end OnePayslip

/-! ## Failure of the marking transaction -/

section MarkingFailure

variable {F : Type}

theorem markConsumed_error (s : Store F) (ots : List (Overtime F))
    (rbs : List (Reimbursement F)) (runID : Nat) (faults : Faults)
    (h : (0 < ots.length ∧ faults.overtimeUpdate = true) ∨
      (0 < rbs.length ∧ faults.reimbursementUpdate = true)) :
    ∃ err, markConsumed s ots rbs runID faults = Except.error err := by
  unfold markConsumed
  by_cases h1 : 0 < ots.length ∧ faults.overtimeUpdate = true
  · exact ⟨DBError.overtimeUpdate, by rw [if_pos h1]⟩
  · have h2 : 0 < rbs.length ∧ faults.reimbursementUpdate = true := by
      rcases h with h | h
      · exact absurd h h1
      · exact h
    exact ⟨DBError.reimbursementUpdate, by rw [if_neg h1]; simp only; rw [if_pos h2]⟩

/-- The employee loop leaves the audit rows as they are. -/
theorem foldl_process_auditLogs [Zero F] [Add F] [Mul F] [Div F] [NatCast F]
    (period : PayrollPeriod) (adminID : Nat) (requestIP : String)
    (faults : Nat → Faults) (emps : List (Employee F)) (s : Store F) :
    (emps.foldl (processEmployee period adminID requestIP faults) s).auditLogs =
      s.auditLogs := by
  apply foldl_preserves (fun s' : Store F => s'.auditLogs = s.auditLogs) _ _ emps s rfl
  intro a b ha
  exact processEmployee_preserves (fun s' : Store F => s'.auditLogs = s.auditLogs)
    (fun _ _ _ hs => hs) (fun _ _ hs => hs) period adminID requestIP faults a b ha

theorem workingDaysOf_pos (period : PayrollPeriod) : 1 ≤ workingDaysOf period := by
  unfold workingDaysOf
  simp only
  split_ifs <;> omega

end MarkingFailure

/-! ## Consumption references are kept -/

section References

variable {F : Type}

theorem forall₂_trans_of {α : Type} {R S T : α → α → Prop}
    (h : ∀ a b c, R a b → S b c → T a c) :
    ∀ {l₁ l₂ l₃ : List α}, List.Forall₂ R l₁ l₂ → List.Forall₂ S l₂ l₃ →
      List.Forall₂ T l₁ l₃
  | [], _, _, List.Forall₂.nil, List.Forall₂.nil => List.Forall₂.nil
  | _ :: _, _, _, List.Forall₂.cons h₁ t₁, List.Forall₂.cons h₂ t₂ =>
    List.Forall₂.cons (h _ _ _ h₁ h₂) (forall₂_trans_of h t₁ t₂)

theorem forall₂_mem_left {α : Type} {R : α → α → Prop} :
    ∀ {l₁ l₂ : List α}, List.Forall₂ R l₁ l₂ → ∀ a ∈ l₁, ∃ b ∈ l₂, R a b
  | _, _, List.Forall₂.nil, a, ha => by cases ha
  | _, _, List.Forall₂.cons h t, a, ha => by
    rcases List.mem_cons.mp ha with rfl | hmem
    · exact ⟨_, List.mem_cons_self _ _, h⟩
    · obtain ⟨b, hb, hab⟩ := forall₂_mem_left t a hmem
      exact ⟨b, List.mem_cons_of_mem _ hb, hab⟩

theorem forall₂_mem_right {α : Type} {R : α → α → Prop} :
    ∀ {l₁ l₂ : List α}, List.Forall₂ R l₁ l₂ → ∀ b ∈ l₂, ∃ a ∈ l₁, R a b
  | _, _, List.Forall₂.nil, b, hb => by cases hb
  | _, _, List.Forall₂.cons h t, b, hb => by
    rcases List.mem_cons.mp hb with rfl | hmem
    · exact ⟨_, List.mem_cons_self _ _, h⟩
    · obtain ⟨a, ha, hab⟩ := forall₂_mem_right t b hmem
      exact ⟨a, List.mem_cons_of_mem _ ha, hab⟩

theorem forall₂_map_keys {α : Type} (f : α → Nat) {R : α → α → Prop}
    (hR : ∀ a b, R a b → f b = f a) :
    ∀ {l₁ l₂ : List α}, List.Forall₂ R l₁ l₂ → l₂.map f = l₁.map f
  | _, _, List.Forall₂.nil => rfl
  | _, _, List.Forall₂.cons h t => by
    rw [List.map_cons, List.map_cons, hR _ _ h, forall₂_map_keys f hR t]

theorem referencesKept_refl (s : Store F) : ReferencesKept s s :=
  ⟨List.forall₂_same.mpr (fun _ _ => ⟨rfl, fun _ => rfl⟩),
   List.forall₂_same.mpr (fun _ _ => ⟨rfl, fun _ => rfl⟩)⟩

theorem referencesKept_trans {s₁ s₂ s₃ : Store F} (h₁ : ReferencesKept s₁ s₂)
    (h₂ : ReferencesKept s₂ s₃) : ReferencesKept s₁ s₃ := by
  constructor
  · refine forall₂_trans_of ?_ h₁.1 h₂.1
    rintro a b c ⟨hid₁, hk₁⟩ ⟨hid₂, hk₂⟩
    refine ⟨hid₂.trans hid₁, fun hset => ?_⟩
    have hb : b = a := hk₁ hset
    subst hb
    exact hk₂ hset
  · refine forall₂_trans_of ?_ h₁.2 h₂.2
    rintro a b c ⟨hid₁, hk₁⟩ ⟨hid₂, hk₂⟩
    refine ⟨hid₂.trans hid₁, fun hset => ?_⟩
    have hb : b = a := hk₁ hset
    subst hb
    exact hk₂ hset

theorem referencesKept_keys {s s' : Store F} (h : ReferencesKept s s') :
    s'.overtimes.map (fun o => o.ID) = s.overtimes.map (fun o => o.ID) ∧
      s'.reimbursements.map (fun r => r.ID) = s.reimbursements.map (fun r => r.ID) :=
  ⟨forall₂_map_keys (fun o : Overtime F => o.ID) (fun _ _ hab => hab.1) h.1,
   forall₂_map_keys (fun r : Reimbursement F => r.ID) (fun _ _ hab => hab.1) h.2⟩

/-- With distinct keys, the marking transaction of a call only touches rows
without a consumption reference. -/
theorem referencesKept_markedStore (s : Store F) (empID : Nat) (lo hi : Int) (runID : Nat)
    (hot : (s.overtimes.map (fun o => o.ID)).Nodup)
    (hrb : (s.reimbursements.map (fun r => r.ID)).Nodup) :
    ReferencesKept s
      (markedStore s (findOvertimes s empID lo hi) (findReimbursements s empID lo hi) runID) := by
  constructor
  · show List.Forall₂ _ s.overtimes (markOvertimes s.overtimes _ runID)
    unfold markOvertimes
    rw [List.forall₂_map_right_iff, List.forall₂_same]
    intro o ho
    constructor
    · split_ifs <;> rfl
    · intro hset
      have hnot : o.ID ∉ (findOvertimes s empID lo hi).map (fun o => o.ID) := by
        intro hmem
        rw [findOvertimes_eq_filter] at hmem
        have := (mem_ids_filter_iff (fun o : Overtime F => o.ID) _ s.overtimes hot o ho).mp hmem
        simp only [decide_eq_true_eq] at this
        exact hset this.2.2.2
      rw [if_neg hnot]
  · show List.Forall₂ _ s.reimbursements (markReimbursements s.reimbursements _ runID)
    unfold markReimbursements
    rw [List.forall₂_map_right_iff, List.forall₂_same]
    intro r hr
    constructor
    · split_ifs <;> rfl
    · intro hset
      have hnot : r.ID ∉ (findReimbursements s empID lo hi).map (fun r => r.ID) := by
        intro hmem
        rw [findReimbursements_eq_filter] at hmem
        have := (mem_ids_filter_iff (fun r : Reimbursement F => r.ID) _ s.reimbursements hrb
          r hr).mp hmem
        simp only [decide_eq_true_eq] at this
        exact hset this.2.2.2
      rw [if_neg hnot]

/-- With distinct keys in `s`, rows kept row by row are kept entry by entry. -/
theorem setReferencesUnchanged_of_kept {s s' : Store F} (h : ReferencesKept s s')
    (hot : (s.overtimes.map (fun o => o.ID)).Nodup)
    (hrb : (s.reimbursements.map (fun r => r.ID)).Nodup) : SetReferencesUnchanged s s' := by
  constructor
  · intro o ho hset
    constructor
    · obtain ⟨o', ho', _, hk⟩ := forall₂_mem_left h.1 o ho
      rw [← hk hset]
      exact ho'
    · intro o' ho' hid
      obtain ⟨o₀, ho₀, hid₀, hk⟩ := forall₂_mem_right h.1 o' ho'
      have heq : o₀ = o := List.inj_on_of_nodup_map hot ho₀ ho (hid₀.symm.trans hid)
      subst heq
      exact hk hset
  · intro r hr hset
    constructor
    · obtain ⟨r', hr', _, hk⟩ := forall₂_mem_left h.2 r hr
      rw [← hk hset]
      exact hr'
    · intro r' hr' hid
      obtain ⟨r₀, hr₀, hid₀, hk⟩ := forall₂_mem_right h.2 r' hr'
      have heq : r₀ = r := List.inj_on_of_nodup_map hrb hr₀ hr (hid₀.symm.trans hid)
      subst heq
      exact hk hset

/-- The invariant carried through a run: references of `s` kept, keys distinct. -/
theorem kept_and_nodup_markedStore (s s' : Store F) (emp : Employee F)
    (period : PayrollPeriod)
    (h : ReferencesKept s s' ∧ (s'.overtimes.map (fun o => o.ID)).Nodup ∧
      (s'.reimbursements.map (fun r => r.ID)).Nodup) :
    ReferencesKept s
        (markedStore s' (findOvertimes s' emp.ID period.StartDate period.EndDate)
          (findReimbursements s' emp.ID period.StartDate period.EndDate) period.ID) ∧
      ((markedStore s' (findOvertimes s' emp.ID period.StartDate period.EndDate)
          (findReimbursements s' emp.ID period.StartDate period.EndDate)
          period.ID).overtimes.map (fun o => o.ID)).Nodup ∧
      ((markedStore s' (findOvertimes s' emp.ID period.StartDate period.EndDate)
          (findReimbursements s' emp.ID period.StartDate period.EndDate)
          period.ID).reimbursements.map (fun r => r.ID)).Nodup := by
  obtain ⟨hk, hot, hrb⟩ := h
  have hstep := referencesKept_markedStore s' emp.ID period.StartDate period.EndDate period.ID
    hot hrb
  have hkeys := referencesKept_keys hstep
  refine ⟨referencesKept_trans hk hstep, ?_, ?_⟩
  · rw [hkeys.1]; exact hot
  · rw [hkeys.2]; exact hrb

end References

/-! ## `SubmitAttendance` -/

section Attendances

variable {F : Type}

/-- The window `[startOfDay, startOfDay + 24h)` of an instant holds exactly the
instants of its calendar day. -/
theorem same_day_iff (now t : Int) :
    (midnight (dayOf now) ≤ t ∧ t < midnight (dayOf now) + 24 * 3600) ↔
      dayOf t = dayOf now := by
  unfold midnight dayOf secondsPerDay
  omega

theorem findAttendance_isSome_iff (s : Store F) (employeeID : Nat) (now : Int) :
    (findAttendance s employeeID (midnight (dayOf now))
        (midnight (dayOf now) + 24 * 3600)).isSome = true ↔
      ∃ r ∈ s.attendances, r.EmployeeID = employeeID ∧ dayOf r.CheckIn = dayOf now := by
  unfold findAttendance
  rw [List.find?_isSome]
  constructor
  · rintro ⟨r, hr, hp⟩
    simp only [Bool.and_eq_true, decide_eq_true_eq] at hp
    exact ⟨r, hr, hp.1.1, (same_day_iff now r.CheckIn).mp ⟨hp.1.2, hp.2⟩⟩
  · rintro ⟨r, hr, he, hd⟩
    have := (same_day_iff now r.CheckIn).mpr hd
    refine ⟨r, hr, ?_⟩
    simp only [Bool.and_eq_true, decide_eq_true_eq]
    exact ⟨⟨he, this.1⟩, this.2⟩

/-- A request that finds a row of the employee on the day of `now` is answered
with 409 and leaves the store. -/
theorem submit_conflict (s : Store F) (k : Nat) (now : Int) (db : AttendanceDB)
    (hwk : weekday now ≠ Saturday ∧ weekday now ≠ Sunday)
    (h : ∃ r ∈ s.attendances, r.EmployeeID = k + 1 ∧ dayOf r.CheckIn = dayOf now) :
    SubmitAttendance s (some (k + 1)) now db =
      (⟨409, ResponseBody.error "Attendance for today has already been submitted."⟩, s) := by
  have hfound := (findAttendance_isSome_iff s (k + 1) now).mpr h
  unfold SubmitAttendance
  simp only
  rw [if_neg (by rintro (h1 | h1); exact hwk.1 h1; exact hwk.2 h1)]
  rw [if_pos (Or.inr hfound)]
  rfl

/-- A request on a weekday that finds no row and whose `INSERT` goes through is
answered with 201 and appends the row. -/
theorem submit_created (s : Store F) (k : Nat) (now : Int) (db : AttendanceDB) (key : Nat)
    (hwk : weekday now ≠ Saturday ∧ weekday now ≠ Sunday)
    (h : ¬ ∃ r ∈ s.attendances, r.EmployeeID = k + 1 ∧ dayOf r.CheckIn = dayOf now)
    (hlook : db.lookupError = false) (hins : db.insertedID = some key) :
    SubmitAttendance s (some (k + 1)) now db =
      (⟨201, ResponseBody.attendance ⟨key, k + 1, now⟩⟩,
        { s with attendances := s.attendances ++ [⟨key, k + 1, now⟩] }) := by
  have hfound : ¬ (findAttendance s (k + 1) (midnight (dayOf now))
      (midnight (dayOf now) + 24 * 3600)).isSome = true :=
    fun hf => h ((findAttendance_isSome_iff s (k + 1) now).mp hf)
  unfold SubmitAttendance
  simp only
  rw [if_neg (by rintro (h1 | h1); exact hwk.1 h1; exact hwk.2 h1)]
  have hno : ¬ (db.lookupError = true ∨ (findAttendance s (k + 1) (midnight (dayOf now))
      (midnight (dayOf now) + 24 * 3600)).isSome = true) := by
    rintro (h1 | h1)
    · rw [hlook] at h1
      cases h1
    · exact hfound h1
  rw [if_neg hno]
  rw [hins]
  rfl

/-- Every request either leaves the table of attendances or appends one row of
an employee who had none on the day of `now`. -/
theorem submit_cases (s : Store F) (employeeId : Option Nat) (now : Int) (db : AttendanceDB) :
    (SubmitAttendance s employeeId now db).2 = s ∨
      ∃ k key, employeeId = some (k + 1) ∧
        (¬ ∃ r ∈ s.attendances, r.EmployeeID = k + 1 ∧ dayOf r.CheckIn = dayOf now) ∧
        (SubmitAttendance s employeeId now db).2 =
          { s with attendances := s.attendances ++ [⟨key, k + 1, now⟩] } := by
  unfold SubmitAttendance
  split
  · left; rfl
  · left; rfl
  · rename_i k
    simp only
    split_ifs with h1 h2
    · left; rfl
    · left; rfl
    · split
      · left; rfl
      · rename_i key _
        right
        refine ⟨k, key, rfl, ?_, rfl⟩
        intro hex
        exact h2 (Or.inr ((findAttendance_isSome_iff s (k + 1) now).mpr hex))

/-- The handler `SubmitAttendance` keeps "at most one row per employee and
day". -/
theorem submit_preserves_atMostOnePerDay (s : Store F) (employeeId : Option Nat) (now : Int)
    (db : AttendanceDB) (h : AtMostOnePerDay s) :
    AtMostOnePerDay (SubmitAttendance s employeeId now db).2 := by
  rcases submit_cases s employeeId now db with hsame | ⟨k, key, _, hnone, happ⟩
  · rw [hsame]; exact h
  · rw [happ]
    intro e d
    show (s.attendances ++ [(⟨key, k + 1, now⟩ : Attendance)]).countP _ ≤ 1
    rw [List.countP_append, List.countP_singleton]
    by_cases hnew : k + 1 = e ∧ dayOf now = d
    · have hzero : s.attendances.countP
          (fun a => decide (a.EmployeeID = e) && decide (dayOf a.CheckIn = d)) = 0 := by
        rw [List.countP_eq_zero]
        intro r hr hp
        simp only [Bool.and_eq_true, decide_eq_true_eq] at hp
        exact hnone ⟨r, hr, hp.1.trans hnew.1.symm, hp.2.trans hnew.2.symm⟩
      rw [hzero]
      split_ifs <;> omega
    · have hfalse : (decide ((⟨key, k + 1, now⟩ : Attendance).EmployeeID = e) &&
          decide (dayOf (⟨key, k + 1, now⟩ : Attendance).CheckIn = d)) = false := by
        simpa using fun he => fun hd => hnew ⟨he, hd⟩
      rw [if_neg (by rw [hfalse]; simp)]
      exact h e d

end Attendances

/-! ## What the totals sum -/

section Totals

variable {F : Type} [Zero F] [Add F] [Mul F] [Div F] [NatCast F]

/-- What the code sums. When `calculatePayslipForEmployee` returns a payslip,
its `OvertimeHours` is the total, accumulated from 0 in row order, of `Hours` over exactly the
overtime rows of the employee with `Date` in `[StartDate, EndDate]` and no
`PayrollRunID`, and its `Reimbursement` the total of `Amount` over exactly the
reimbursement rows of the employee with `CreatedAt` in that range and no
`PayrollRunID`; both ranges are the closed interval of instants from
`StartDate` to `EndDate`. When no row matches, the call returns a payslip,
whatever the faults, and both totals are 0. -/
theorem totals_sum_selected_rows (s : Store F) (emp : Employee F) (period : PayrollPeriod)
    (adminID : Nat) (requestIP : String) (faults : Faults) :
    (∀ ps, (calculatePayslipForEmployee s emp period adminID requestIP faults).1 =
        Except.ok ps →
      ps.OvertimeHours =
        (s.overtimes.filter (fun o => decide (o.EmployeeID = emp.ID ∧
          period.StartDate ≤ o.Date ∧ o.Date ≤ period.EndDate ∧
          o.PayrollRunID = Option.none))).foldl (fun total o => total + o.Hours) 0 ∧
      ps.Reimbursement =
        (s.reimbursements.filter (fun r => decide (r.EmployeeID = emp.ID ∧
          period.StartDate ≤ r.CreatedAt ∧ r.CreatedAt ≤ period.EndDate ∧
          r.PayrollRunID = Option.none))).foldl (fun total r => total + r.Amount) 0) ∧
    ((∀ o ∈ s.overtimes, ¬ (o.EmployeeID = emp.ID ∧ period.StartDate ≤ o.Date ∧
        o.Date ≤ period.EndDate ∧ o.PayrollRunID = Option.none)) →
      (∀ r ∈ s.reimbursements, ¬ (r.EmployeeID = emp.ID ∧ period.StartDate ≤ r.CreatedAt ∧
        r.CreatedAt ≤ period.EndDate ∧ r.PayrollRunID = Option.none)) →
      ∃ ps, (calculatePayslipForEmployee s emp period adminID requestIP faults).1 =
          Except.ok ps ∧ ps.OvertimeHours = 0 ∧ ps.Reimbursement = 0) := by
  constructor
  · intro ps h
    rw [calculate_fst_ok h, ← findOvertimes_eq_filter, ← findReimbursements_eq_filter]
    exact ⟨rfl, rfl⟩
  · intro hot hrb
    have h1 : findOvertimes s emp.ID period.StartDate period.EndDate = [] := by
      rw [findOvertimes_eq_filter, List.filter_eq_nil_iff]
      intro o ho
      simpa using hot o ho
    have h2 : findReimbursements s emp.ID period.StartDate period.EndDate = [] := by
      rw [findReimbursements_eq_filter, List.filter_eq_nil_iff]
      intro r hr
      simpa using hrb r hr
    refine ⟨buildPayslip s emp period adminID requestIP, ?_, ?_, ?_⟩
    · unfold calculatePayslipForEmployee
      simp only [h1, h2, markConsumed_empty]
    · show sumHours (findOvertimes s emp.ID period.StartDate period.EndDate) = 0
      rw [h1]; rfl
    · show sumAmounts (findReimbursements s emp.ID period.StartDate period.EndDate) = 0
      rw [h2]; rfl

/-- An instance of `totals_sum_selected_rows`: the partial-attendance test with the
reimbursement inserted on 10 June 2025; and the full-attendance test, where no
row matches. -/
theorem totals_sum_selected_rows_witness :
    ((buildPayslip (partialAttendanceStore (midnight 20249)) testEmployee testPeriod 1
        "127.0.0.1").OvertimeHours =
      ((partialAttendanceStore (midnight 20249)).overtimes.filter
        (fun o => decide (o.EmployeeID = testEmployee.ID ∧
          testPeriod.StartDate ≤ o.Date ∧ o.Date ≤ testPeriod.EndDate ∧
          o.PayrollRunID = Option.none))).foldl (fun total o => total + o.Hours) 0 ∧
     (buildPayslip (partialAttendanceStore (midnight 20249)) testEmployee testPeriod 1
        "127.0.0.1").Reimbursement =
      ((partialAttendanceStore (midnight 20249)).reimbursements.filter
        (fun r => decide (r.EmployeeID = testEmployee.ID ∧
          testPeriod.StartDate ≤ r.CreatedAt ∧ r.CreatedAt ≤ testPeriod.EndDate ∧
          r.PayrollRunID = Option.none))).foldl (fun total r => total + r.Amount) 0) ∧
    ∃ ps, (calculatePayslipForEmployee fullAttendanceStore testEmployee testPeriod 1
        "127.0.0.1" ⟨true, true, false⟩).1 = Except.ok ps ∧
      ps.OvertimeHours = 0 ∧ ps.Reimbursement = 0 :=
  ⟨(totals_sum_selected_rows (partialAttendanceStore (midnight 20249)) testEmployee testPeriod 1
      "127.0.0.1" Faults.none).1 _ (calculate_fst_no_faults _ _ _ _ _ _ rfl rfl),
   (totals_sum_selected_rows fullAttendanceStore testEmployee testPeriod 1
      "127.0.0.1" ⟨true, true, false⟩).2 (by simp [fullAttendanceStore])
      (by simp [fullAttendanceStore])⟩

end Totals

/-! ## Claims -/

section Claims

variable {F : Type} [Zero F] [Add F] [Mul F] [Div F] [NatCast F]

/-- C1. For a period given by two calendar dates `a` and `b`, the `WorkingDays`
of the payslip that `calculatePayslipForEmployee` returns is `max 1 n`, where `n`
is the number of dates `d` with `a ≤ d ≤ b` whose weekday is Monday (1) to
Friday (5); hence it is at least 1, also when the range holds no such date or
is empty. -/
theorem workingDays_eq_max_one_weekdays (s : Store F) (emp : Employee F) (id : Nat)
    (a b : Int) (isRun : Bool) (adminID : Nat) (requestIP : String) (faults : Faults)
    (ps : Payslip F)
    (h : (calculatePayslipForEmployee s emp ⟨id, midnight a, midnight b, isRun⟩
      adminID requestIP faults).1 = Except.ok ps) :
    ps.WorkingDays = max 1 ((Finset.Icc a b).filter
      (fun d => 1 ≤ weekdayOfDay d ∧ weekdayOfDay d ≤ 5)).card ∧ 1 ≤ ps.WorkingDays := by
  have hps := calculate_fst_ok h
  have hwd : ps.WorkingDays = workingDaysOf ⟨id, midnight a, midnight b, isRun⟩ := by
    rw [hps]; rfl
  rw [hwd, workingDaysOf_midnight]
  exact ⟨rfl, le_max_left _ _⟩

/-- Witness of `workingDays_eq_max_one_weekdays`: the weekend 7 to 8 June 2025,
without a Monday-to-Friday date, and June 2025. -/
theorem workingDays_eq_max_one_weekdays_witness :
    ((buildPayslip weekendStore testEmployee ⟨2, midnight 20246, midnight 20247, false⟩ 1
        "127.0.0.1").WorkingDays =
      max 1 ((Finset.Icc (20246 : Int) 20247).filter
        (fun d => 1 ≤ weekdayOfDay d ∧ weekdayOfDay d ≤ 5)).card ∧
      1 ≤ (buildPayslip weekendStore testEmployee ⟨2, midnight 20246, midnight 20247, false⟩ 1
        "127.0.0.1").WorkingDays) ∧
    ((buildPayslip fullAttendanceStore testEmployee ⟨1, midnight 20240, midnight 20269, false⟩ 1
        "127.0.0.1").WorkingDays =
      max 1 ((Finset.Icc (20240 : Int) 20269).filter
        (fun d => 1 ≤ weekdayOfDay d ∧ weekdayOfDay d ≤ 5)).card ∧
      1 ≤ (buildPayslip fullAttendanceStore testEmployee
        ⟨1, midnight 20240, midnight 20269, false⟩ 1 "127.0.0.1").WorkingDays) :=
  ⟨workingDays_eq_max_one_weekdays weekendStore testEmployee 2 20246 20247 false 1 "127.0.0.1"
      Faults.none _ (calculate_fst_no_faults _ _ _ _ _ _ rfl rfl),
   workingDays_eq_max_one_weekdays fullAttendanceStore testEmployee 1 20240 20269 false 1
      "127.0.0.1" Faults.none _ (calculate_fst_no_faults _ _ _ _ _ _ rfl rfl)⟩

/-- C2. Whenever `calculatePayslipForEmployee` returns a payslip, its
`TakeHomePay` is `ProratedSalary + OvertimePay + Reimbursement`, the very sum
the code forms, in whatever arithmetic `F` carries. -/
theorem takeHomePay_eq_sum (s : Store F) (emp : Employee F) (period : PayrollPeriod)
    (adminID : Nat) (requestIP : String) (faults : Faults) (ps : Payslip F)
    (h : (calculatePayslipForEmployee s emp period adminID requestIP faults).1 = Except.ok ps) :
    ps.TakeHomePay = ps.ProratedSalary + ps.OvertimePay + ps.Reimbursement := by
  rw [calculate_fst_ok h]
  rfl

/-- Witness of `takeHomePay_eq_sum`: the partial-attendance test with the
reimbursement inserted on 10 June 2025. -/
theorem takeHomePay_eq_sum_witness :
    (buildPayslip (partialAttendanceStore (midnight 20249)) testEmployee testPeriod 1
        "127.0.0.1").TakeHomePay =
      (buildPayslip (partialAttendanceStore (midnight 20249)) testEmployee testPeriod 1
          "127.0.0.1").ProratedSalary +
        (buildPayslip (partialAttendanceStore (midnight 20249)) testEmployee testPeriod 1
          "127.0.0.1").OvertimePay +
        (buildPayslip (partialAttendanceStore (midnight 20249)) testEmployee testPeriod 1
          "127.0.0.1").Reimbursement :=
  takeHomePay_eq_sum (partialAttendanceStore (midnight 20249)) testEmployee testPeriod 1
    "127.0.0.1" Faults.none _ (calculate_fst_no_faults _ _ _ _ _ _ rfl rfl)

/-- C3, counterexample. Over the weekend 7 to 8 June 2025 the test employee, with
no row of any kind, has an attendance row on every Monday-to-Friday date of the
period (there is none); the payslip has `WorkingDays = 1`, `DaysAttended = 0`
and `ProratedSalary = TakeHomePay = 0`, not the salary 10,500,000. -/
theorem weekend_period_not_base_salary :
    (∀ d : Int, 20246 ≤ d → d ≤ 20247 → 1 ≤ weekdayOfDay d ∧ weekdayOfDay d ≤ 5 →
      weekendStore.attendances.countP
        (fun r => decide (r.EmployeeID = testEmployee.ID) && decide (dayOf r.CheckIn = d)) = 1) ∧
    weekendStore.overtimes = [] ∧ weekendStore.reimbursements = [] ∧
    ∃ ps, (calculatePayslipForEmployee weekendStore testEmployee
        ⟨2, midnight 20246, midnight 20247, false⟩ 1 "127.0.0.1" Faults.none).1 = Except.ok ps ∧
      ps.WorkingDays = 1 ∧ ps.DaysAttended = 0 ∧ ps.DaysAttended ≠ ps.WorkingDays ∧
      ps.ProratedSalary = 0 ∧ ps.TakeHomePay = 0 ∧ testEmployee.Salary = 10500000 ∧
      ps.ProratedSalary ≠ testEmployee.Salary ∧ ps.TakeHomePay ≠ testEmployee.Salary := by
  have hwd : workingDaysOf ⟨2, midnight 20246, midnight 20247, false⟩ = 1 := by
    rw [workingDaysOf_midnight]
    decide
  refine ⟨?_, rfl, rfl, _, calculate_fst_no_faults _ _ _ _ _ _ rfl rfl, ?_⟩
  · intro d h1 h2 hw
    unfold weekdayOfDay at hw
    omega
  · have hda : (buildPayslip weekendStore testEmployee
        ⟨2, midnight 20246, midnight 20247, false⟩ 1 "127.0.0.1").DaysAttended = 0 := by decide
    have hpro : (buildPayslip weekendStore testEmployee
        ⟨2, midnight 20246, midnight 20247, false⟩ 1 "127.0.0.1").ProratedSalary = 0 := by
      simp [buildPayslip, countAttendance, weekendStore]
    have htake : (buildPayslip weekendStore testEmployee
        ⟨2, midnight 20246, midnight 20247, false⟩ 1 "127.0.0.1").TakeHomePay = 0 := by
      simp [buildPayslip, countAttendance, findOvertimes, findReimbursements, sumHours,
        sumAmounts, weekendStore]
    refine ⟨hwd, hda, ?_, hpro, htake, rfl, ?_, ?_⟩
    · rw [hda]
      show (0 : Nat) ≠ workingDaysOf _
      rw [hwd]
      decide
    · rw [hpro]; simp [testEmployee]
    · rw [htake]; simp [testEmployee]

/-- C3, as amended. In exact arithmetic (a field of characteristic zero): when
the period, given by two calendar dates, holds at least one Monday-to-Friday
date, the employee has exactly one attendance row on every Monday-to-Friday date
of the period and none on its other dates, the row of the last date (if any) is
stamped at 00:00:00, and the employee has no overtime and no reimbursement row,
the payslip has `DaysAttended = WorkingDays` and
`ProratedSalary = TakeHomePay = Salary`. -/
theorem full_attendance_pays_base_salary {F : Type} [Field F] [CharZero F]
    (s : Store F) (emp : Employee F) (id : Nat) (a b : Int) (isRun : Bool)
    (adminID : Nat) (requestIP : String) (faults : Faults) (ps : Payslip F)
    (hday : ∃ d, a ≤ d ∧ d ≤ b ∧ 1 ≤ weekdayOfDay d ∧ weekdayOfDay d ≤ 5)
    (hatt : ∀ d, a ≤ d → d ≤ b →
      s.attendances.countP
          (fun r => decide (r.EmployeeID = emp.ID) && decide (dayOf r.CheckIn = d)) =
        if 1 ≤ weekdayOfDay d ∧ weekdayOfDay d ≤ 5 then 1 else 0)
    (hlast : ∀ r ∈ s.attendances, r.EmployeeID = emp.ID → dayOf r.CheckIn = b →
      r.CheckIn = midnight b)
    (hot : ∀ o ∈ s.overtimes, o.EmployeeID ≠ emp.ID)
    (hrb : ∀ r ∈ s.reimbursements, r.EmployeeID ≠ emp.ID)
    (h : (calculatePayslipForEmployee s emp ⟨id, midnight a, midnight b, isRun⟩
      adminID requestIP faults).1 = Except.ok ps) :
    ps.DaysAttended = ps.WorkingDays ∧ ps.ProratedSalary = emp.Salary ∧
      ps.TakeHomePay = emp.Salary := by
  have hps := calculate_fst_ok h
  have hpos : 1 ≤ ((Finset.Icc a b).filter
      (fun d => 1 ≤ weekdayOfDay d ∧ weekdayOfDay d ≤ 5)).card := by
    obtain ⟨d, h1, h2, h3⟩ := hday
    exact Finset.card_pos.mpr ⟨d, Finset.mem_filter.mpr ⟨Finset.mem_Icc.mpr ⟨h1, h2⟩, h3⟩⟩
  have hwd : workingDaysOf ⟨id, midnight a, midnight b, isRun⟩ =
      ((Finset.Icc a b).filter (fun d => 1 ≤ weekdayOfDay d ∧ weekdayOfDay d ≤ 5)).card := by
    rw [workingDaysOf_midnight]
    exact max_eq_right hpos
  have hda := countAttendance_full s emp.ID a b hatt hlast
  have hne : ((workingDaysOf ⟨id, midnight a, midnight b, isRun⟩ : Nat) : F) ≠ 0 := by
    rw [hwd]
    exact Nat.cast_ne_zero.mpr (by omega)
  have hpro : ps.ProratedSalary = emp.Salary := by
    rw [hps]
    show emp.Salary / ((workingDaysOf ⟨id, midnight a, midnight b, isRun⟩ : Nat) : F) *
      ((countAttendance s emp.ID (midnight a) (midnight b) : Nat) : F) = emp.Salary
    rw [hda, ← hwd]
    exact div_mul_cancel₀ _ hne
  refine ⟨?_, hpro, ?_⟩
  · rw [hps]
    show countAttendance s emp.ID (midnight a) (midnight b) = workingDaysOf _
    rw [hda, hwd]
  · have hsum : ps.TakeHomePay = ps.ProratedSalary + ps.OvertimePay + ps.Reimbursement := by
      rw [hps]; rfl
    have hop : ps.OvertimePay = 0 := by
      rw [hps]
      show sumHours (findOvertimes s emp.ID (midnight a) (midnight b)) * _ = 0
      rw [findOvertimes_eq_nil s emp.ID _ _ hot]
      simp [sumHours]
    have hre : ps.Reimbursement = 0 := by
      rw [hps]
      show sumAmounts (findReimbursements s emp.ID (midnight a) (midnight b)) = 0
      rw [findReimbursements_eq_nil s emp.ID _ _ hrb]
      simp [sumAmounts]
    rw [hsum, hpro, hop, hre]
    simp

/-- Witness of `full_attendance_pays_base_salary`: the rows of the full-attendance
test over 1 to 29 June 2025, a period that ends on a Sunday. -/
theorem full_attendance_pays_base_salary_witness :
    (buildPayslip fullAttendanceStore testEmployee ⟨1, midnight 20240, midnight 20268, false⟩
        1 "127.0.0.1").DaysAttended =
      (buildPayslip fullAttendanceStore testEmployee ⟨1, midnight 20240, midnight 20268, false⟩
        1 "127.0.0.1").WorkingDays ∧
    (buildPayslip fullAttendanceStore testEmployee ⟨1, midnight 20240, midnight 20268, false⟩
        1 "127.0.0.1").ProratedSalary = testEmployee.Salary ∧
    (buildPayslip fullAttendanceStore testEmployee ⟨1, midnight 20240, midnight 20268, false⟩
        1 "127.0.0.1").TakeHomePay = testEmployee.Salary :=
  full_attendance_pays_base_salary fullAttendanceStore testEmployee 1 20240 20268 false 1
    "127.0.0.1" Faults.none _
    ⟨20241, by decide, by decide, by decide, by decide⟩
    (by intro d h1 h2; interval_cases d <;> decide)
    (by decide)
    (by decide)
    (by decide)
    (calculate_fst_no_faults _ _ _ _ _ _ rfl rfl)

/-- C4, at the input of the test "calculates correctly for full attendance"
(salary 10,500,000, 1 to 30 June 2025, a check-in at 09:00 on each of the 21
Monday-to-Friday dates): all 21 check-ins satisfy `start ≤ t < end + 1 day`, the
code counts 20 of them (the one of Monday 30 June lies after `EndDate`), and the
take-home pay is 10,000,000, not the 10,500,000 the test asserts. -/
theorem full_attendance_test_counts_twenty :
    (fullAttendanceStore.attendances.filter
      (fun r => decide (r.EmployeeID = testEmployee.ID) &&
        (decide (testPeriod.StartDate ≤ r.CheckIn) &&
          decide (r.CheckIn < testPeriod.EndDate + secondsPerDay)))).length = 21 ∧
    ∃ ps, (calculatePayslipForEmployee fullAttendanceStore testEmployee testPeriod
        1 "127.0.0.1" Faults.none).1 = Except.ok ps ∧
      ps.WorkingDays = 21 ∧ ps.DaysAttended = 20 ∧ ps.ProratedSalary = 10000000 ∧
      ps.TakeHomePay = 10000000 := by
  have hwd : workingDaysOf testPeriod = 21 := by
    unfold testPeriod
    rw [workingDaysOf_midnight]
    decide
  have hda : countAttendance fullAttendanceStore testEmployee.ID testPeriod.StartDate
      testPeriod.EndDate = 20 := by decide
  refine ⟨by decide, _, calculate_fst_no_faults _ _ _ _ _ _ rfl rfl, hwd, hda, ?_, ?_⟩
  · show testEmployee.Salary / ((workingDaysOf testPeriod : Nat) : ℚ) *
      ((countAttendance fullAttendanceStore testEmployee.ID testPeriod.StartDate
        testPeriod.EndDate : Nat) : ℚ) = 10000000
    rw [hwd, hda]
    norm_num [testEmployee]
  · show testEmployee.Salary / ((workingDaysOf testPeriod : Nat) : ℚ) *
      ((countAttendance fullAttendanceStore testEmployee.ID testPeriod.StartDate
        testPeriod.EndDate : Nat) : ℚ) +
      sumHours (findOvertimes fullAttendanceStore testEmployee.ID testPeriod.StartDate
        testPeriod.EndDate) * _ +
      sumAmounts (findReimbursements fullAttendanceStore testEmployee.ID testPeriod.StartDate
        testPeriod.EndDate) = 10000000
    rw [hwd, hda]
    norm_num [testEmployee, findOvertimes, findReimbursements, fullAttendanceStore, sumHours,
      sumAmounts]

/-- C5. Let a call A of `calculatePayslipForEmployee` return a payslip. After
any sequence of further calls of the payroll functions, a call B (any employee,
any period) that returns a payslip selects no overtime row and no reimbursement
row with the key of a row A selected, and its `OvertimeHours` and
`Reimbursement` are the totals over the rows B selected, `OvertimePay` and
`TakeHomePay` being computed from those. A call for the same employee and period
right after A returns a payslip with `OvertimeHours = 0` and
`Reimbursement = 0`. -/
theorem consumed_rows_never_selected_again (s : Store F) (emp : Employee F)
    (period : PayrollPeriod) (adminID : Nat) (requestIP : String) (faults : Faults)
    (ps : Payslip F)
    (h : (calculatePayslipForEmployee s emp period adminID requestIP faults).1 = Except.ok ps) :
    (∀ (later : List (Call F)) (emp' : Employee F) (period' : PayrollPeriod) (adminID' : Nat)
        (requestIP' : String) (faults' : Faults) (ps' : Payslip F),
      (calculatePayslipForEmployee
          (applyCalls (calculatePayslipForEmployee s emp period adminID requestIP faults).2 later)
          emp' period' adminID' requestIP' faults').1 = Except.ok ps' →
        (∀ o ∈ findOvertimes s emp.ID period.StartDate period.EndDate,
          ∀ o' ∈ findOvertimes
              (applyCalls (calculatePayslipForEmployee s emp period adminID requestIP faults).2
                later) emp'.ID period'.StartDate period'.EndDate, o'.ID ≠ o.ID) ∧
        (∀ r ∈ findReimbursements s emp.ID period.StartDate period.EndDate,
          ∀ r' ∈ findReimbursements
              (applyCalls (calculatePayslipForEmployee s emp period adminID requestIP faults).2
                later) emp'.ID period'.StartDate period'.EndDate, r'.ID ≠ r.ID) ∧
        ps'.OvertimeHours = sumHours (findOvertimes
          (applyCalls (calculatePayslipForEmployee s emp period adminID requestIP faults).2 later)
          emp'.ID period'.StartDate period'.EndDate) ∧
        ps'.Reimbursement = sumAmounts (findReimbursements
          (applyCalls (calculatePayslipForEmployee s emp period adminID requestIP faults).2 later)
          emp'.ID period'.StartDate period'.EndDate) ∧
        ps'.OvertimePay = ps'.OvertimeHours *
          (emp'.Salary / ((ps'.WorkingDays : Nat) : F) / ((8 : Nat) : F) * ((2 : Nat) : F)) ∧
        ps'.TakeHomePay = ps'.ProratedSalary + ps'.OvertimePay + ps'.Reimbursement) ∧
    (∀ (adminID' : Nat) (requestIP' : String) (faults' : Faults),
      ∃ ps', (calculatePayslipForEmployee
          (calculatePayslipForEmployee s emp period adminID requestIP faults).2
          emp period adminID' requestIP' faults').1 = Except.ok ps' ∧
        ps'.OvertimeHours = 0 ∧ ps'.Reimbursement = 0) := by
  have hA := calculate_snd_ok h
  constructor
  · intro later emp' period' adminID' requestIP' faults' ps' hB
    have hcons := consumed_applyCalls _ _ later _
      (consumed_after_mark s (findOvertimes s emp.ID period.StartDate period.EndDate)
        (findReimbursements s emp.ID period.StartDate period.EndDate) period.ID)
    rw [← hA] at hcons
    refine ⟨?_, ?_, ?_⟩
    · intro o ho o' ho' heq
      obtain ⟨hmem, _, _, _, hnone⟩ := mem_findOvertimes.mp ho'
      exact hcons.1 o' hmem (List.mem_map.mpr ⟨o, ho, heq.symm⟩) hnone
    · intro r hr r' hr' heq
      obtain ⟨hmem, _, _, _, hnone⟩ := mem_findReimbursements.mp hr'
      exact hcons.2 r' hmem (List.mem_map.mpr ⟨r, hr, heq.symm⟩) hnone
    · rw [calculate_fst_ok hB]
      exact ⟨rfl, rfl, rfl, rfl⟩
  · intro adminID' requestIP' faults'
    have h1 := findOvertimes_after_mark s emp.ID period.StartDate period.EndDate
      (findReimbursements s emp.ID period.StartDate period.EndDate) period.ID
    have h2 := findReimbursements_after_mark s emp.ID period.StartDate period.EndDate
      (findOvertimes s emp.ID period.StartDate period.EndDate) period.ID
    rw [hA]
    refine ⟨buildPayslip (markedStore s (findOvertimes s emp.ID period.StartDate period.EndDate)
      (findReimbursements s emp.ID period.StartDate period.EndDate) period.ID)
      emp period adminID' requestIP', ?_, ?_, ?_⟩
    · unfold calculatePayslipForEmployee
      simp only [h1, h2, markConsumed_empty]
    · show sumHours (findOvertimes _ emp.ID period.StartDate period.EndDate) = 0
      rw [h1]; rfl
    · show sumAmounts (findReimbursements _ emp.ID period.StartDate period.EndDate) = 0
      rw [h2]; rfl

/-- Witness of `consumed_rows_never_selected_again`: on `ledgerStore`, call A for
the test employee over June 2025, then a run of period 1, then call B for the
same employee and period; and call B right after A. -/
theorem consumed_rows_never_selected_again_witness :
    (∀ o ∈ findOvertimes ledgerStore testEmployee.ID testPeriod.StartDate testPeriod.EndDate,
      ∀ o' ∈ findOvertimes
          (applyCalls (calculatePayslipForEmployee ledgerStore testEmployee testPeriod 1
            "127.0.0.1" Faults.none).2 [Call.run ⟨1, 1, "127.0.0.1", fun _ => Faults.none⟩])
          testEmployee.ID testPeriod.StartDate testPeriod.EndDate, o'.ID ≠ o.ID) ∧
    ∃ ps', (calculatePayslipForEmployee
        (calculatePayslipForEmployee ledgerStore testEmployee testPeriod 1 "127.0.0.1"
          Faults.none).2 testEmployee testPeriod 1 "127.0.0.1" Faults.none).1 = Except.ok ps' ∧
      ps'.OvertimeHours = 0 ∧ ps'.Reimbursement = 0 :=
  ⟨((consumed_rows_never_selected_again ledgerStore testEmployee testPeriod 1 "127.0.0.1"
        Faults.none _ (calculate_fst_no_faults _ _ _ _ _ _ rfl rfl)).1
      [Call.run ⟨1, 1, "127.0.0.1", fun _ => Faults.none⟩] testEmployee testPeriod 1
      "127.0.0.1" Faults.none _ (calculate_fst_no_faults _ _ _ _ _ _ rfl rfl)).1,
   (consumed_rows_never_selected_again ledgerStore testEmployee testPeriod 1 "127.0.0.1"
      Faults.none _ (calculate_fst_no_faults _ _ _ _ _ _ rfl rfl)).2 1 "127.0.0.1" Faults.none⟩

/-- C6, at a failing input. In `lastDayStore` the reimbursement row of the test
employee was created on 30 June 2025 at 10:00, on the last date of the period
1 to 30 June 2025, and is unconsumed; the overtime row is dated that same day.
The call for June sums the overtime row (`OvertimeHours = 2`) and leaves the
reimbursement row out (`Reimbursement = 0`, not 50,000), and so does the call
for the following period, 1 to 31 July 2025. -/
theorem last_day_reimbursement_not_summed :
    lastDayStore.reimbursements.map
        (fun r => (r.EmployeeID, dayOf r.CreatedAt, r.Amount, r.PayrollRunID)) =
      [(1, 20269, 50000, Option.none)] ∧
    dayOf testPeriod.StartDate = 20240 ∧ dayOf testPeriod.EndDate = 20269 ∧
    (∃ ps, (calculatePayslipForEmployee lastDayStore testEmployee testPeriod 1 "127.0.0.1"
        Faults.none).1 = Except.ok ps ∧ ps.OvertimeHours = 2 ∧ ps.Reimbursement = 0) ∧
    ∃ ps, (calculatePayslipForEmployee lastDayStore testEmployee julyPeriod 1 "127.0.0.1"
        Faults.none).1 = Except.ok ps ∧ ps.Reimbursement = 0 := by
  have hot : findOvertimes lastDayStore testEmployee.ID testPeriod.StartDate
      testPeriod.EndDate = [⟨1, 1, midnight (june1 + 29), 2, true, Option.none⟩] := by rfl
  have hrb : findReimbursements lastDayStore testEmployee.ID testPeriod.StartDate
      testPeriod.EndDate = [] := by rfl
  have hrb' : findReimbursements lastDayStore testEmployee.ID julyPeriod.StartDate
      julyPeriod.EndDate = [] := by rfl
  refine ⟨?_, ?_, ?_, ⟨_, calculate_fst_no_faults _ _ _ _ _ _ rfl rfl, ?_, ?_⟩,
    ⟨_, calculate_fst_no_faults _ _ _ _ _ _ rfl rfl, ?_⟩⟩
  · have hday : dayOf (midnight (june1 + 29) + 36000) = 20269 := by decide
    simp [lastDayStore, hday]
  · decide
  · decide
  · show sumHours (findOvertimes lastDayStore testEmployee.ID testPeriod.StartDate
      testPeriod.EndDate) = 2
    rw [hot]
    norm_num [sumHours]
  · show sumAmounts (findReimbursements lastDayStore testEmployee.ID testPeriod.StartDate
      testPeriod.EndDate) = 0
    rw [hrb]
    rfl
  · show sumAmounts (findReimbursements lastDayStore testEmployee.ID julyPeriod.StartDate
      julyPeriod.EndDate) = 0
    rw [hrb']
    rfl

/-- C7. When `calculatePayslipForEmployee` returns a payslip, and the overtime
and reimbursement tables have distinct primary keys, the store it leaves is the
store before with `PayrollRunID` set to the period id on exactly the selected
rows (of the employee, in range, not yet consumed) of the two tables: every
other row, every other column and every other table is unchanged. -/
theorem store_after_success (s : Store F) (emp : Employee F) (period : PayrollPeriod)
    (adminID : Nat) (requestIP : String) (faults : Faults) (ps : Payslip F)
    (hot : (s.overtimes.map (fun o => o.ID)).Nodup)
    (hrb : (s.reimbursements.map (fun r => r.ID)).Nodup)
    (h : (calculatePayslipForEmployee s emp period adminID requestIP faults).1 = Except.ok ps) :
    (calculatePayslipForEmployee s emp period adminID requestIP faults).2 =
      { s with
        overtimes := s.overtimes.map (fun o =>
          if o.EmployeeID = emp.ID ∧ period.StartDate ≤ o.Date ∧ o.Date ≤ period.EndDate ∧
              o.PayrollRunID = Option.none
          then { o with PayrollRunID := some period.ID } else o)
        reimbursements := s.reimbursements.map (fun r =>
          if r.EmployeeID = emp.ID ∧ period.StartDate ≤ r.CreatedAt ∧
              r.CreatedAt ≤ period.EndDate ∧ r.PayrollRunID = Option.none
          then { r with PayrollRunID := some period.ID } else r) } := by
  rw [calculate_snd_ok h]
  unfold markedStore markOvertimes markReimbursements
  congr 1
  · apply List.map_congr_left
    intro o ho
    rw [findOvertimes_eq_filter]
    have hiff := mem_ids_filter_iff (fun o : Overtime F => o.ID)
      (fun o => decide (o.EmployeeID = emp.ID ∧ period.StartDate ≤ o.Date ∧
        o.Date ≤ period.EndDate ∧ o.PayrollRunID = Option.none)) s.overtimes hot o ho
    simp only [decide_eq_true_eq] at hiff
    by_cases hsel : o.EmployeeID = emp.ID ∧ period.StartDate ≤ o.Date ∧
        o.Date ≤ period.EndDate ∧ o.PayrollRunID = Option.none
    · rw [if_pos (hiff.mpr hsel), if_pos hsel]
    · rw [if_neg (fun hmem => hsel (hiff.mp hmem)), if_neg hsel]
  · apply List.map_congr_left
    intro r hr
    rw [findReimbursements_eq_filter]
    have hiff := mem_ids_filter_iff (fun r : Reimbursement F => r.ID)
      (fun r => decide (r.EmployeeID = emp.ID ∧ period.StartDate ≤ r.CreatedAt ∧
        r.CreatedAt ≤ period.EndDate ∧ r.PayrollRunID = Option.none)) s.reimbursements hrb r hr
    simp only [decide_eq_true_eq] at hiff
    by_cases hsel : r.EmployeeID = emp.ID ∧ period.StartDate ≤ r.CreatedAt ∧
        r.CreatedAt ≤ period.EndDate ∧ r.PayrollRunID = Option.none
    · rw [if_pos (hiff.mpr hsel), if_pos hsel]
    · rw [if_neg (fun hmem => hsel (hiff.mp hmem)), if_neg hsel]

/-- Witness of `store_after_success`: on `ledgerStore` the call for the test
employee over June 2025 succeeds and the keys are distinct. -/
theorem store_after_success_witness :
    (calculatePayslipForEmployee ledgerStore testEmployee testPeriod 1 "127.0.0.1"
        Faults.none).2 =
      { ledgerStore with
        overtimes := ledgerStore.overtimes.map (fun o =>
          if o.EmployeeID = testEmployee.ID ∧ testPeriod.StartDate ≤ o.Date ∧
              o.Date ≤ testPeriod.EndDate ∧ o.PayrollRunID = Option.none
          then { o with PayrollRunID := some testPeriod.ID } else o)
        reimbursements := ledgerStore.reimbursements.map (fun r =>
          if r.EmployeeID = testEmployee.ID ∧ testPeriod.StartDate ≤ r.CreatedAt ∧
              r.CreatedAt ≤ testPeriod.EndDate ∧ r.PayrollRunID = Option.none
          then { r with PayrollRunID := some testPeriod.ID } else r) } :=
  store_after_success ledgerStore testEmployee testPeriod 1 "127.0.0.1" Faults.none _
    (by decide) (by decide) (calculate_fst_no_faults _ _ _ _ _ _ rfl rfl)

/-- C8. A call of `RunPayrollService` with a period id that no period row has,
or with one whose row (the one `First` returns) has `IsRun` set, leaves the
store exactly as it was: no payslip, no consumption reference, no flag change,
no audit row. -/
theorem run_aborts_without_mutation (s : Store F) (periodID adminID : Nat)
    (requestIP : String) (faults : Nat → Faults)
    (h : (∀ p ∈ s.periods, p.ID ≠ periodID) ∨
      ∃ p, findPeriod s periodID = some p ∧ p.IsRun = true) :
    RunPayrollService s periodID adminID requestIP faults = s := by
  rcases h with hnone | ⟨p, hp, hrun⟩
  · apply run_of_not_found
    unfold findPeriod
    rw [List.find?_eq_none]
    intro p hp
    simpa using hnone p hp
  · exact run_of_already_run s periodID adminID requestIP faults p hp hrun

/-- Witness of `run_aborts_without_mutation`: period id 99 is unknown to the
full-attendance database, and period 1 of `closedStore` has been run. -/
theorem run_aborts_without_mutation_witness :
    RunPayrollService fullAttendanceStore 99 1 "127.0.0.1" (fun _ => Faults.none) =
        fullAttendanceStore ∧
      RunPayrollService closedStore 1 1 "127.0.0.1" (fun _ => Faults.none) = closedStore :=
  ⟨run_aborts_without_mutation fullAttendanceStore 99 1 "127.0.0.1" (fun _ => Faults.none)
      (Or.inl (by decide)),
   run_aborts_without_mutation closedStore 1 1 "127.0.0.1" (fun _ => Faults.none)
      (Or.inr ⟨{ testPeriod with IsRun := true }, rfl, rfl⟩)⟩

/-- C9. When a period row with the id exists, after a first call of
`RunPayrollService` for that id the row found for it has `IsRun` set, and a
second call for the same id (any actor, any faults) leaves the store unchanged,
whatever the faults of the first call were. -/
theorem second_run_is_noop (s : Store F) (periodID : Nat)
    (adminID : Nat) (requestIP : String) (faults : Nat → Faults)
    (adminID' : Nat) (requestIP' : String) (faults' : Nat → Faults)
    (h : ∃ p ∈ s.periods, p.ID = periodID) :
    (∃ p, findPeriod (RunPayrollService s periodID adminID requestIP faults) periodID = some p ∧
        p.IsRun = true) ∧
      RunPayrollService (RunPayrollService s periodID adminID requestIP faults) periodID
          adminID' requestIP' faults' =
        RunPayrollService s periodID adminID requestIP faults := by
  have hfound : ∃ p, findPeriod (RunPayrollService s periodID adminID requestIP faults)
      periodID = some p ∧ p.IsRun = true := by
    cases hfind : findPeriod s periodID with
    | none =>
      exfalso
      obtain ⟨p, hp, hid⟩ := h
      unfold findPeriod at hfind
      rw [List.find?_eq_none] at hfind
      exact hfind p hp (by simpa using hid)
    | some period =>
      cases hrun : period.IsRun with
      | true =>
        rw [run_of_already_run s periodID adminID requestIP faults period hfind hrun]
        exact ⟨period, hfind, hrun⟩
      | false =>
        rw [run_of_not_yet_run s periodID adminID requestIP faults period hfind hrun]
        refine ⟨{ period with IsRun := true }, ?_, rfl⟩
        have hper := (foldl_process_periods period adminID requestIP faults
          (setIsRun s period.ID).employees (setIsRun s period.ID)).1
        have hset := findPeriod_setIsRun hfind
        unfold findPeriod at hset ⊢
        unfold CreateAuditLog
        simp only
        rw [hper]
        exact hset
  refine ⟨hfound, ?_⟩
  obtain ⟨p, hp, hrun⟩ := hfound
  exact run_of_already_run _ periodID adminID' requestIP' faults' p hp hrun

/-- Witness of `second_run_is_noop`: period 1 exists in the full-attendance
database. -/
theorem second_run_is_noop_witness :
    (∃ p, findPeriod (RunPayrollService fullAttendanceStore 1 1 "127.0.0.1"
        (fun _ => Faults.none)) 1 = some p ∧ p.IsRun = true) ∧
      RunPayrollService (RunPayrollService fullAttendanceStore 1 1 "127.0.0.1"
          (fun _ => Faults.none)) 1 2 "10.0.0.1" (fun _ => ⟨true, true, true⟩) =
        RunPayrollService fullAttendanceStore 1 1 "127.0.0.1" (fun _ => Faults.none) :=
  second_run_is_noop fullAttendanceStore 1 1 "127.0.0.1" (fun _ => Faults.none) 2 "10.0.0.1"
    (fun _ => ⟨true, true, true⟩) ⟨testPeriod, by simp [fullAttendanceStore], rfl⟩

/-- C10. From a store without payslips and with distinct employee ids, after any
sequence of calls of `RunPayrollService` (any period ids, actors and faults) no
two payslip rows share their (employee, period) pair: for every pair, at most
one payslip row carries it. -/
theorem at_most_one_payslip_per_pair (s : Store F) (calls : List RunCall)
    (hpay : s.payslips = []) (hemp : (s.employees.map (fun e => e.ID)).Nodup) :
    ((runAll s calls).payslips.map (fun ps => (ps.EmployeeID, ps.PayrollPeriodID))).Nodup ∧
      ∀ (employeeID periodID : Nat),
        (runAll s calls).payslips.countP
          (fun ps => decide (ps.EmployeeID = employeeID ∧ ps.PayrollPeriodID = periodID)) ≤ 1 := by
  have hinv : PayslipInvariant s := by
    refine ⟨hemp, ?_, ?_⟩
    · rw [hpay]; exact List.nodup_nil
    · rw [hpay]; intro ps hps; cases hps
  have hnd := (runAll_preserves_payslipInvariant calls s hinv).2.1
  refine ⟨hnd, ?_⟩
  intro e p
  have hcount := countP_key_le_one
    (fun ps : Payslip F => (ps.EmployeeID, ps.PayrollPeriodID)) (e, p) _ hnd
  refine le_trans (le_of_eq ?_) hcount
  apply List.countP_congr
  intro ps _
  simp [Prod.ext_iff]

/-- Witness of `at_most_one_payslip_per_pair`: `ledgerStore` has no payslip and
two employees with distinct ids; period 1 is run twice and an unknown period
once, which leaves one payslip per employee. -/
theorem at_most_one_payslip_per_pair_witness :
    (runAll ledgerStore
        [⟨1, 1, "127.0.0.1", fun _ => Faults.none⟩, ⟨1, 2, "127.0.0.1", fun _ => Faults.none⟩,
          ⟨99, 1, "127.0.0.1", fun _ => Faults.none⟩]).payslips.length = 2 ∧
    (((runAll ledgerStore
        [⟨1, 1, "127.0.0.1", fun _ => Faults.none⟩, ⟨1, 2, "127.0.0.1", fun _ => Faults.none⟩,
          ⟨99, 1, "127.0.0.1", fun _ => Faults.none⟩]).payslips.map
        (fun ps => (ps.EmployeeID, ps.PayrollPeriodID))).Nodup ∧
      ∀ (employeeID periodID : Nat),
        (runAll ledgerStore
          [⟨1, 1, "127.0.0.1", fun _ => Faults.none⟩, ⟨1, 2, "127.0.0.1", fun _ => Faults.none⟩,
            ⟨99, 1, "127.0.0.1", fun _ => Faults.none⟩]).payslips.countP
          (fun ps => decide (ps.EmployeeID = employeeID ∧ ps.PayrollPeriodID = periodID)) ≤ 1) :=
  ⟨by decide, at_most_one_payslip_per_pair ledgerStore _ rfl (by decide)⟩

/-- C11. When an `UPDATE` of the marking transaction is issued and fails (the
one on overtimes, or the one on reimbursements after the one on overtimes went
through), `calculatePayslipForEmployee` returns an error and leaves the store
exactly as it was, so that every overtime and reimbursement row keeps its
consumption reference; in the loop of `RunPayrollService` the store is then
unchanged by that employee (no payslip row) and the loop goes on with the
remaining employees. -/
theorem failed_marking_rolls_back (s : Store F) (emp : Employee F) (period : PayrollPeriod)
    (adminID : Nat) (requestIP : String) (faults : Faults)
    (h : (0 < (findOvertimes s emp.ID period.StartDate period.EndDate).length ∧
        faults.overtimeUpdate = true) ∨
      (0 < (findReimbursements s emp.ID period.StartDate period.EndDate).length ∧
        faults.reimbursementUpdate = true)) :
    (∃ err, calculatePayslipForEmployee s emp period adminID requestIP faults =
        (Except.error err, s)) ∧
    ∀ runFaults : Nat → Faults, runFaults emp.ID = faults →
      processEmployee period adminID requestIP runFaults s emp = s ∧
      ∀ rest : List (Employee F),
        (emp :: rest).foldl (processEmployee period adminID requestIP runFaults) s =
          rest.foldl (processEmployee period adminID requestIP runFaults) s := by
  obtain ⟨err, herr⟩ := markConsumed_error s _ _ period.ID faults h
  have hcalc : calculatePayslipForEmployee s emp period adminID requestIP faults =
      (Except.error err, s) := by
    unfold calculatePayslipForEmployee
    simp only [herr]
  refine ⟨⟨err, hcalc⟩, ?_⟩
  intro runFaults hrf
  have hproc : processEmployee period adminID requestIP runFaults s emp = s := by
    unfold processEmployee
    rw [hrf, hcalc]
  refine ⟨hproc, ?_⟩
  intro rest
  rw [List.foldl_cons, hproc]

/-- Witness of `failed_marking_rolls_back`: on `ledgerStore` the test employee
has a selected reimbursement row and the `UPDATE` on reimbursements fails. -/
theorem failed_marking_rolls_back_witness :
    (∃ err, calculatePayslipForEmployee ledgerStore testEmployee testPeriod 1 "127.0.0.1"
        ⟨false, true, false⟩ = (Except.error err, ledgerStore)) ∧
    ∀ runFaults : Nat → Faults, runFaults testEmployee.ID = ⟨false, true, false⟩ →
      processEmployee testPeriod 1 "127.0.0.1" runFaults ledgerStore testEmployee =
        ledgerStore ∧
      ∀ rest : List (Employee ℚ),
        (testEmployee :: rest).foldl (processEmployee testPeriod 1 "127.0.0.1" runFaults)
            ledgerStore =
          rest.foldl (processEmployee testPeriod 1 "127.0.0.1" runFaults) ledgerStore :=
  failed_marking_rolls_back ledgerStore testEmployee testPeriod 1 "127.0.0.1"
    ⟨false, true, false⟩ (Or.inr ⟨by decide, rfl⟩)

/-- C12. In a store whose overtime and reimbursement tables have distinct
primary keys, after any call of `calculatePayslipForEmployee` and after any call
of `RunPayrollService` (any arguments, any faults), every overtime or
reimbursement row that carried a consumption reference before the call is still
in its table, unchanged, and is the only row under its key: its `PayrollRunID`
is neither cleared nor reassigned. -/
theorem consumption_reference_never_changes (s : Store F)
    (hot : (s.overtimes.map (fun o => o.ID)).Nodup)
    (hrb : (s.reimbursements.map (fun r => r.ID)).Nodup) :
    (∀ (emp : Employee F) (period : PayrollPeriod) (adminID : Nat) (requestIP : String)
        (faults : Faults),
      SetReferencesUnchanged s
        (calculatePayslipForEmployee s emp period adminID requestIP faults).2) ∧
    (∀ (periodID adminID : Nat) (requestIP : String) (faults : Nat → Faults),
      SetReferencesUnchanged s (RunPayrollService s periodID adminID requestIP faults)) := by
  constructor
  · intro emp period adminID requestIP faults
    apply setReferencesUnchanged_of_kept _ hot hrb
    rcases calculate_cases s emp period adminID requestIP faults with ⟨err, he⟩ | hok
    · rw [he]
      exact referencesKept_refl s
    · rw [hok]
      exact referencesKept_markedStore s emp.ID period.StartDate period.EndDate period.ID
        hot hrb
  · intro periodID adminID requestIP faults
    apply setReferencesUnchanged_of_kept _ hot hrb
    exact (run_preserves
      (fun s' : Store F => ReferencesKept s s' ∧
        (s'.overtimes.map (fun o : Overtime F => o.ID)).Nodup ∧
        (s'.reimbursements.map (fun r : Reimbursement F => r.ID)).Nodup)
      (fun s' emp period hs' => kept_and_nodup_markedStore s s' emp period hs')
      (fun _ _ hs' => hs') (fun _ _ hs' => hs') (fun _ _ _ _ _ _ hs' => hs')
      s periodID adminID requestIP faults ⟨referencesKept_refl s, hot, hrb⟩).1

/-- Witness of `consumption_reference_never_changes`: `ledgerStore`, whose rows
4 carry the reference of run 7, under a call for the test employee and under a
run of period 1. -/
theorem consumption_reference_never_changes_witness :
    SetReferencesUnchanged ledgerStore
        (calculatePayslipForEmployee ledgerStore testEmployee testPeriod 1 "127.0.0.1"
          Faults.none).2 ∧
      SetReferencesUnchanged ledgerStore
        (RunPayrollService ledgerStore 1 1 "127.0.0.1" (fun _ => Faults.none)) :=
  ⟨(consumption_reference_never_changes ledgerStore (by decide) (by decide)).1 testEmployee
      testPeriod 1 "127.0.0.1" Faults.none,
   (consumption_reference_never_changes ledgerStore (by decide) (by decide)).2 1 1
      "127.0.0.1" (fun _ => Faults.none)⟩

/-- C13, counterexample. The unpaid employee (salary 0) over Saturday 7 to Monday
9 June 2025, with check-ins on the Saturday and the Sunday: `DaysAttended = 2`
exceeds `WorkingDays = 1`, and the prorated salary, `0 / 1 * 2 = 0`, does not
exceed the base salary 0. -/
theorem zero_salary_not_exceeded :
    ∃ ps, (calculatePayslipForEmployee overAttendanceStore unpaidEmployee longWeekendPeriod
        1 "127.0.0.1" Faults.none).1 = Except.ok ps ∧
      ps.WorkingDays = 1 ∧ ps.DaysAttended = 2 ∧ ps.WorkingDays < ps.DaysAttended ∧
      ps.BaseSalary = 0 ∧ ps.ProratedSalary = 0 ∧ ¬ ps.BaseSalary < ps.ProratedSalary := by
  have hwd : workingDaysOf longWeekendPeriod = 1 := by
    unfold longWeekendPeriod
    rw [workingDaysOf_midnight]
    decide
  have hda : countAttendance overAttendanceStore unpaidEmployee.ID longWeekendPeriod.StartDate
      longWeekendPeriod.EndDate = 2 := by decide
  have hpro : (buildPayslip overAttendanceStore unpaidEmployee longWeekendPeriod 1
      "127.0.0.1").ProratedSalary = 0 := by
    show unpaidEmployee.Salary / ((workingDaysOf longWeekendPeriod : Nat) : ℚ) *
      ((countAttendance overAttendanceStore unpaidEmployee.ID longWeekendPeriod.StartDate
        longWeekendPeriod.EndDate : Nat) : ℚ) = 0
    rw [hwd, hda]
    norm_num [unpaidEmployee]
  refine ⟨_, calculate_fst_no_faults _ _ _ _ _ _ rfl rfl, hwd, hda, ?_, rfl, hpro, ?_⟩
  · show workingDaysOf longWeekendPeriod < countAttendance overAttendanceStore
      unpaidEmployee.ID longWeekendPeriod.StartDate longWeekendPeriod.EndDate
    rw [hwd, hda]
    decide
  · rw [hpro]
    show ¬ unpaidEmployee.Salary < 0
    norm_num [unpaidEmployee]

/-- C13, as amended. In whatever arithmetic `F` carries, the payslip has
`BaseSalary = Salary` and `ProratedSalary = Salary / WorkingDays * DaysAttended`,
with no clamping. In exact arithmetic (a linearly ordered field), when the
salary is positive and `DaysAttended` exceeds `WorkingDays`, the prorated salary
exceeds the base salary. -/
theorem prorated_salary_not_clamped :
    (∀ (F : Type) [Zero F] [Add F] [Mul F] [Div F] [NatCast F] (s : Store F)
        (emp : Employee F) (period : PayrollPeriod) (adminID : Nat) (requestIP : String)
        (faults : Faults) (ps : Payslip F),
      (calculatePayslipForEmployee s emp period adminID requestIP faults).1 = Except.ok ps →
        ps.BaseSalary = emp.Salary ∧
          ps.ProratedSalary = emp.Salary / (ps.WorkingDays : F) * (ps.DaysAttended : F)) ∧
    (∀ (F : Type) [LinearOrderedField F] (s : Store F) (emp : Employee F)
        (period : PayrollPeriod) (adminID : Nat) (requestIP : String) (faults : Faults)
        (ps : Payslip F),
      (calculatePayslipForEmployee s emp period adminID requestIP faults).1 = Except.ok ps →
        0 < emp.Salary → ps.WorkingDays < ps.DaysAttended →
          ps.BaseSalary < ps.ProratedSalary) := by
  constructor
  · intro F _ _ _ _ _ s emp period adminID requestIP faults ps h
    have hps := calculate_fst_ok h
    subst hps
    exact ⟨rfl, rfl⟩
  · intro F _ s emp period adminID requestIP faults ps h hpos hlt
    have hps := calculate_fst_ok h
    subst hps
    show emp.Salary < emp.Salary / ((workingDaysOf period : Nat) : F) *
      ((countAttendance s emp.ID period.StartDate period.EndDate : Nat) : F)
    have hlt' : workingDaysOf period <
        countAttendance s emp.ID period.StartDate period.EndDate := hlt
    have hwd : (0 : F) < ((workingDaysOf period : Nat) : F) :=
      Nat.cast_pos.mpr (workingDaysOf_pos period)
    have hcast : ((workingDaysOf period : Nat) : F) <
        ((countAttendance s emp.ID period.StartDate period.EndDate : Nat) : F) :=
      Nat.cast_lt.mpr hlt'
    rw [div_mul_eq_mul_div, lt_div_iff₀ hwd]
    exact mul_lt_mul_of_pos_left hcast hpos

/-- Witness of `prorated_salary_not_clamped`: a paid employee with the check-ins
of the unpaid one. -/
theorem prorated_salary_not_clamped_witness :
    ((buildPayslip overAttendanceStore ⟨3, "paid", 10500000⟩ longWeekendPeriod 1
        "127.0.0.1").BaseSalary = 10500000 ∧
      (buildPayslip overAttendanceStore ⟨3, "paid", 10500000⟩ longWeekendPeriod 1
        "127.0.0.1").ProratedSalary =
        10500000 /
          (((buildPayslip overAttendanceStore ⟨3, "paid", 10500000⟩ longWeekendPeriod 1
            "127.0.0.1").WorkingDays : Nat) : ℚ) *
          (((buildPayslip overAttendanceStore ⟨3, "paid", 10500000⟩ longWeekendPeriod 1
            "127.0.0.1").DaysAttended : Nat) : ℚ)) ∧
      (buildPayslip overAttendanceStore ⟨3, "paid", 10500000⟩ longWeekendPeriod 1
        "127.0.0.1").BaseSalary <
        (buildPayslip overAttendanceStore ⟨3, "paid", 10500000⟩ longWeekendPeriod 1
          "127.0.0.1").ProratedSalary :=
  ⟨prorated_salary_not_clamped.1 ℚ overAttendanceStore ⟨3, "paid", 10500000⟩
      longWeekendPeriod 1 "127.0.0.1" Faults.none _
      (calculate_fst_no_faults _ _ _ _ _ _ rfl rfl),
   prorated_salary_not_clamped.2 ℚ overAttendanceStore ⟨3, "paid", 10500000⟩
      longWeekendPeriod 1 "127.0.0.1" Faults.none _
      (calculate_fst_no_faults _ _ _ _ _ _ rfl rfl) (by norm_num) (by
        show workingDaysOf longWeekendPeriod < countAttendance overAttendanceStore 3
          longWeekendPeriod.StartDate longWeekendPeriod.EndDate
        have hwd : workingDaysOf longWeekendPeriod = 1 := by
          unfold longWeekendPeriod
          rw [workingDaysOf_midnight]
          decide
        rw [hwd]
        decide)⟩

/-- C14. In whatever arithmetic `F` carries, the payslip has
`OvertimePay = OvertimeHours * (hourlyRate * 2)` with
`hourlyRate = Salary / WorkingDays / 8`, as the code groups it. In exact
arithmetic (a field of characteristic zero) this is
`OvertimeHours * hourlyRate * 2`; with salary 10,500,000, 21 working days and 3
overtime hours the hourly rate is 62,500 and the overtime pay 375,000, and with
15 attended days and a reimbursement total of 50,000 besides, the take-home pay
is 7,925,000. -/
theorem overtimePay_double_hourly_rate :
    (∀ (F : Type) [Zero F] [Add F] [Mul F] [Div F] [NatCast F] (s : Store F)
        (emp : Employee F) (period : PayrollPeriod) (adminID : Nat) (requestIP : String)
        (faults : Faults) (ps : Payslip F),
      (calculatePayslipForEmployee s emp period adminID requestIP faults).1 = Except.ok ps →
        ps.OvertimePay = ps.OvertimeHours *
          (emp.Salary / (ps.WorkingDays : F) / ((8 : Nat) : F) * ((2 : Nat) : F))) ∧
    (∀ (F : Type) [Field F] [CharZero F] (s : Store F) (emp : Employee F)
        (period : PayrollPeriod) (adminID : Nat) (requestIP : String) (faults : Faults)
        (ps : Payslip F),
      (calculatePayslipForEmployee s emp period adminID requestIP faults).1 = Except.ok ps →
        ps.OvertimePay = ps.OvertimeHours * (emp.Salary / (ps.WorkingDays : F) / 8) * 2 ∧
          (emp.Salary = 10500000 → ps.WorkingDays = 21 → ps.OvertimeHours = 3 →
            emp.Salary / (ps.WorkingDays : F) / 8 = 62500 ∧ ps.OvertimePay = 375000 ∧
              (ps.DaysAttended = 15 → ps.Reimbursement = 50000 →
                ps.TakeHomePay = 7925000))) := by
  constructor
  · intro F _ _ _ _ _ s emp period adminID requestIP faults ps h
    have hps := calculate_fst_ok h
    subst hps
    rfl
  · intro F _ _ s emp period adminID requestIP faults ps h
    have hps := calculate_fst_ok h
    have hop : ps.OvertimePay =
        ps.OvertimeHours * (emp.Salary / (ps.WorkingDays : F) / 8) * 2 := by
      subst hps
      show sumHours _ * (emp.Salary / ((workingDaysOf period : Nat) : F) / ((8 : Nat) : F) *
        ((2 : Nat) : F)) = sumHours _ * (emp.Salary / ((workingDaysOf period : Nat) : F) / 8) * 2
      push_cast
      ring
    refine ⟨hop, ?_⟩
    intro hsal hwd hoh
    have hrate : emp.Salary / (ps.WorkingDays : F) / 8 = 62500 := by
      rw [hsal, hwd]
      norm_num
    have hpay : ps.OvertimePay = 375000 := by
      rw [hop, hrate, hoh]
      norm_num
    refine ⟨hrate, hpay, ?_⟩
    intro hda hre
    have htake : ps.TakeHomePay = ps.ProratedSalary + ps.OvertimePay + ps.Reimbursement := by
      subst hps
      rfl
    have hpro : ps.ProratedSalary =
        emp.Salary / (ps.WorkingDays : F) * (ps.DaysAttended : F) := by
      subst hps
      rfl
    rw [htake, hpro, hpay, hre, hsal, hwd, hda]
    norm_num

/-- Witness of `overtimePay_double_hourly_rate`: the partial-attendance test with
the reimbursement inserted on 10 June 2025, where the figures of the example
come out. -/
theorem overtimePay_double_hourly_rate_witness :
    (buildPayslip (partialAttendanceStore (midnight 20249)) testEmployee testPeriod 1
        "127.0.0.1").OvertimePay =
      (buildPayslip (partialAttendanceStore (midnight 20249)) testEmployee testPeriod 1
          "127.0.0.1").OvertimeHours *
        (testEmployee.Salary /
          (((buildPayslip (partialAttendanceStore (midnight 20249)) testEmployee testPeriod 1
            "127.0.0.1").WorkingDays : Nat) : ℚ) / 8) * 2 ∧
      (buildPayslip (partialAttendanceStore (midnight 20249)) testEmployee testPeriod 1
        "127.0.0.1").OvertimePay = 375000 ∧
      (buildPayslip (partialAttendanceStore (midnight 20249)) testEmployee testPeriod 1
        "127.0.0.1").TakeHomePay = 7925000 :=
  have hthm := overtimePay_double_hourly_rate.2 ℚ (partialAttendanceStore (midnight 20249))
    testEmployee testPeriod 1 "127.0.0.1" Faults.none _
    (calculate_fst_no_faults _ _ _ _ _ _ rfl rfl)
  have hwd : workingDaysOf testPeriod = 21 := by
    unfold testPeriod
    rw [workingDaysOf_midnight]
    decide
  have hoh : sumHours (findOvertimes (partialAttendanceStore (midnight 20249)) testEmployee.ID
      testPeriod.StartDate testPeriod.EndDate) = 3 := by
    have hsel : findOvertimes (partialAttendanceStore (midnight 20249)) testEmployee.ID
        testPeriod.StartDate testPeriod.EndDate =
        [⟨1, 1, midnight (june1 + 4), 3, true, Option.none⟩] := by rfl
    rw [hsel]
    norm_num [sumHours]
  have hre : sumAmounts (findReimbursements (partialAttendanceStore (midnight 20249))
      testEmployee.ID testPeriod.StartDate testPeriod.EndDate) = 50000 := by
    have hsel : findReimbursements (partialAttendanceStore (midnight 20249)) testEmployee.ID
        testPeriod.StartDate testPeriod.EndDate =
        [⟨1, midnight 20249, 1, "Test", 50000, true, Option.none⟩] := by rfl
    rw [hsel]
    norm_num [sumAmounts]
  have hda : countAttendance (partialAttendanceStore (midnight 20249)) testEmployee.ID
      testPeriod.StartDate testPeriod.EndDate = 15 := by decide
  ⟨hthm.1, (hthm.2 rfl hwd hoh).2.1, (hthm.2 rfl hwd hoh).2.2 hda hre⟩

/-- C15. A call of `RunPayrollService` that passes the guard (the period row is
found and not yet run) appends exactly one audit row: actor id, user type
`admin`, action `RAN_PAYROLL`, the text "Successfully ran payroll for period ID
n." with the period id, and the request address; this for any employees and any
faults. With no employee, no payslip row is added. -/
theorem run_appends_one_audit_record (s : Store F) (periodID adminID : Nat)
    (requestIP : String) (faults : Nat → Faults) (period : PayrollPeriod)
    (hfind : findPeriod s periodID = some period) (hrun : period.IsRun = false) :
    (RunPayrollService s periodID adminID requestIP faults).auditLogs =
        s.auditLogs ++
          [{ UserID := adminID, UserType := "admin", Action := "RAN_PAYROLL",
             Details := "Successfully ran payroll for period ID " ++ toString periodID ++ ".",
             RequestIP := requestIP }] ∧
      (s.employees = [] →
        (RunPayrollService s periodID adminID requestIP faults).payslips = s.payslips) := by
  rw [run_of_not_yet_run s periodID adminID requestIP faults period hfind hrun]
  constructor
  · unfold CreateAuditLog
    simp only
    rw [foldl_process_auditLogs]
    rfl
  · intro hemp
    have : (setIsRun s period.ID).employees = [] := hemp
    rw [this]
    rfl

/-- Witness of `run_appends_one_audit_record`: period 1 of `ledgerStore`, with
faults on every statement, and period 1 of a database without employees. -/
theorem run_appends_one_audit_record_witness :
    (RunPayrollService ledgerStore 1 7 "127.0.0.1" (fun _ => ⟨true, true, true⟩)).auditLogs =
        ledgerStore.auditLogs ++
          [{ UserID := 7, UserType := "admin", Action := "RAN_PAYROLL",
             Details := "Successfully ran payroll for period ID " ++ toString 1 ++ ".",
             RequestIP := "127.0.0.1" }] ∧
      (RunPayrollService noEmployeeStore 1 7 "127.0.0.1" (fun _ => Faults.none)).auditLogs =
        [{ UserID := 7, UserType := "admin", Action := "RAN_PAYROLL",
           Details := "Successfully ran payroll for period ID " ++ toString 1 ++ ".",
           RequestIP := "127.0.0.1" }] ∧
      (RunPayrollService noEmployeeStore 1 7 "127.0.0.1" (fun _ => Faults.none)).payslips = [] :=
  ⟨(run_appends_one_audit_record ledgerStore 1 7 "127.0.0.1" (fun _ => ⟨true, true, true⟩)
      testPeriod rfl rfl).1,
   (run_appends_one_audit_record noEmployeeStore 1 7 "127.0.0.1" (fun _ => Faults.none)
      testPeriod rfl rfl).1,
   (run_appends_one_audit_record noEmployeeStore 1 7 "127.0.0.1" (fun _ => Faults.none)
      testPeriod rfl rfl).2 rfl⟩

/-- C16. For an employee (a non-zero id) and a weekday instant `now` (UTC): when
the store holds an attendance row of the employee on the calendar day of `now`,
`SubmitAttendance` answers 409 with the error "Attendance for today has already
been submitted." and leaves the store. When it holds none and the database
works, the request is answered 201 and appends the row, and any further request
of the employee on that day is answered 409 and adds nothing. Every request
keeps at most one attendance row per employee and calendar day. -/
theorem duplicate_attendance_rejected {F : Type} (s : Store F) (employeeID : Nat)
    (now : Int) (db : AttendanceDB) (hemp : employeeID ≠ 0)
    (hwk : weekday now ≠ Saturday ∧ weekday now ≠ Sunday) :
    ((∃ r ∈ s.attendances, r.EmployeeID = employeeID ∧ dayOf r.CheckIn = dayOf now) →
      SubmitAttendance s (some employeeID) now db =
        (⟨409, ResponseBody.error "Attendance for today has already been submitted."⟩, s)) ∧
    ((¬ ∃ r ∈ s.attendances, r.EmployeeID = employeeID ∧ dayOf r.CheckIn = dayOf now) →
      db.lookupError = false → ∀ key, db.insertedID = some key →
        SubmitAttendance s (some employeeID) now db =
          (⟨201, ResponseBody.attendance ⟨key, employeeID, now⟩⟩,
            { s with attendances := s.attendances ++ [⟨key, employeeID, now⟩] }) ∧
        ∀ (now' : Int) (db' : AttendanceDB), dayOf now' = dayOf now →
          SubmitAttendance (SubmitAttendance s (some employeeID) now db).2 (some employeeID)
              now' db' =
            (⟨409, ResponseBody.error "Attendance for today has already been submitted."⟩,
              (SubmitAttendance s (some employeeID) now db).2)) ∧
    (AtMostOnePerDay s → AtMostOnePerDay (SubmitAttendance s (some employeeID) now db).2) := by
  obtain ⟨k, rfl⟩ := Nat.exists_eq_succ_of_ne_zero hemp
  refine ⟨submit_conflict s k now db hwk, ?_, submit_preserves_atMostOnePerDay s _ now db⟩
  intro hnone hlook key hins
  have hfirst := submit_created s k now db key hwk hnone hlook hins
  refine ⟨hfirst, ?_⟩
  intro now' db' hday
  rw [hfirst]
  have hwk' : weekday now' ≠ Saturday ∧ weekday now' ≠ Sunday := by
    unfold weekday at hwk ⊢
    rw [hday]
    exact hwk
  apply submit_conflict _ k now' db' hwk'
  exact ⟨⟨key, k + 1, now⟩, by simp, rfl, hday.symm⟩

/-- Witness of `duplicate_attendance_rejected`: employee 1 submits at 09:30 and
again at 17:00 on Tuesday 10 June 2025. -/
theorem duplicate_attendance_rejected_witness :
    SubmitAttendance noAttendanceStore (some 1) tuesdayMorning ⟨false, some 1⟩ =
        (⟨201, ResponseBody.attendance ⟨1, 1, tuesdayMorning⟩⟩,
          { noAttendanceStore with
            attendances := noAttendanceStore.attendances ++ [⟨1, 1, tuesdayMorning⟩] }) ∧
      SubmitAttendance
          (SubmitAttendance noAttendanceStore (some 1) tuesdayMorning ⟨false, some 1⟩).2
          (some 1) tuesdayEvening ⟨false, some 2⟩ =
        (⟨409, ResponseBody.error "Attendance for today has already been submitted."⟩,
          (SubmitAttendance noAttendanceStore (some 1) tuesdayMorning ⟨false, some 1⟩).2) :=
  have hthm := (duplicate_attendance_rejected noAttendanceStore 1 tuesdayMorning
    ⟨false, some 1⟩ (by decide) (by decide)).2.1 (by simp [noAttendanceStore]) rfl 1 rfl
  ⟨hthm.1, hthm.2 tuesdayEvening ⟨false, some 2⟩ (by decide)⟩

/-- C17, at a failing input. Period 1 is run on `ledgerStore` and the `INSERT`
of the payslip of employee 1 fails. Before the run the overtime row 1 and the
reimbursement row 1 of employee 1 carry no reference. After it both carry the
reference of period 1, and the only payslip row is the one of employee 2:
employee 1 has consumed entries and no payslip. -/
theorem failed_insert_leaves_entries_consumed :
    ledgerStore.overtimes.map (fun o => (o.ID, o.EmployeeID, o.PayrollRunID)) =
        [(1, 1, Option.none), (2, 2, Option.none), (3, 1, Option.none), (4, 1, some 7)] ∧
      ledgerStore.reimbursements.map (fun r => (r.ID, r.EmployeeID, r.PayrollRunID)) =
        [(1, 1, Option.none), (2, 2, Option.none), (3, 1, Option.none), (4, 1, some 7)] ∧
      (RunPayrollService ledgerStore 1 1 "127.0.0.1" insertFailsForEmployeeOne).overtimes.map
          (fun o => (o.ID, o.EmployeeID, o.PayrollRunID)) =
        [(1, 1, some 1), (2, 2, some 1), (3, 1, Option.none), (4, 1, some 7)] ∧
      (RunPayrollService ledgerStore 1 1 "127.0.0.1"
          insertFailsForEmployeeOne).reimbursements.map
          (fun r => (r.ID, r.EmployeeID, r.PayrollRunID)) =
        [(1, 1, some 1), (2, 2, some 1), (3, 1, Option.none), (4, 1, some 7)] ∧
      (RunPayrollService ledgerStore 1 1 "127.0.0.1" insertFailsForEmployeeOne).payslips.map
          (fun ps => (ps.EmployeeID, ps.PayrollPeriodID)) = [(2, 1)] := by
  refine ⟨by decide, by decide, by decide, by decide, by decide⟩

end Claims

end PayslipGenerator
